import Mathlib

/-!
Verification of the TL2 chat-log ingestion toolbox (shallow embedding).

Strings are modelled as `List Char` (`Str`).  Rust machine integers are
modelled as `Nat`/`Int` with explicit wrapping (`% 2^32`) at the points where
the source performs `u32`/`i32` arithmetic that can overflow (release-mode
wrapping semantics).  Fallible Rust code (`Result`, assertion failure) is
modelled with `Option`.  Unicode case mapping (`str::to_lowercase`,
`to_uppercase`) is modelled at the ASCII simple-mapping level, and voca_rs
grapheme segmentation at the char level.
-/

namespace TL2

/-- Strings as lists of characters. -/
abbrev Str := List Char

/-- Convert a Lean string literal to the `Str` model. -/
def str (s : String) : Str := s.data

/-- Rust `char::is_whitespace`: the Unicode `White_Space` code points. -/
def rustIsWhitespace (c : Char) : Bool :=
  let n := c.toNat
  (9 ≤ n && n ≤ 13) || n == 32 || n == 133 || n == 160 || n == 5760 ||
  (8192 ≤ n && n ≤ 8202) || n == 8232 || n == 8233 || n == 8239 ||
  n == 8287 || n == 12288

/-- Rust `char::is_ascii_digit`. -/
def isAsciiDigit (c : Char) : Bool :=
  48 ≤ c.toNat && c.toNat ≤ 57

/-- Rust `char::to_digit(10).unwrap()` on an ASCII digit. -/
def toDigit (c : Char) : Nat := c.toNat - 48

/-- Rust `str::trim_start` / chrono's `trim_left` (drop leading whitespace). -/
def trimStart (s : Str) : Str := s.dropWhile rustIsWhitespace

/-- Rust `str::trim`: drop leading and trailing whitespace. -/
def rustTrim (s : Str) : Str :=
  ((trimStart s).reverse.dropWhile rustIsWhitespace).reverse

/-- Rust `char` ASCII lower-casing (model of the simple case mapping used by
`str::to_lowercase` restricted to ASCII). -/
def lowerChar (c : Char) : Char :=
  if 65 ≤ c.toNat ∧ c.toNat ≤ 90 then Char.ofNat (c.toNat + 32) else c

/-- Rust `char` ASCII upper-casing (model of `to_uppercase` restricted to
ASCII). -/
def upperChar (c : Char) : Char :=
  if 97 ≤ c.toNat ∧ c.toNat ≤ 122 then Char.ofNat (c.toNat - 32) else c

/-- Rust `str::to_lowercase`, modelled char-wise at the ASCII level. -/
def rustToLowercase (s : Str) : Str := s.map lowerChar

/-- `str::replace('\n', " ")`: each newline becomes a single space. -/
def replaceNewlines (s : Str) : Str :=
  s.map (fun c => if c = '\n' then ' ' else c)

/-- Wrapping `u32` arithmetic. -/
def wrapU32 (n : Nat) : Nat := n % 4294967296

/-- Wrapping `i32` arithmetic (two's complement). -/
def wrapI32 (x : Int) : Int := (x + 2147483648) % 4294967296 - 2147483648

/-! ### chrono data model

`DateTime<Utc>` values are represented by their calendar fields.  chrono's
`NaiveTime` stores a seconds-of-minute value `≤ 59` together with a
nanosecond fraction that may reach `1_999_999_999` to encode a leap second,
which makes the representation unique, so structural equality coincides with
instant equality. -/

structure NaiveDateTime where
  year : Int
  month : Nat
  day : Nat
  hour : Nat
  minute : Nat
  second : Nat
  nano : Nat
deriving DecidableEq, Repr

/-- chrono leap-year test (proleptic Gregorian). -/
def isLeapYear (y : Int) : Bool :=
  y % 4 == 0 && (y % 100 != 0 || y % 400 == 0)

/-- Days in a calendar month (0 for an invalid month number). -/
def daysInMonth (y : Int) (m : Nat) : Nat :=
  match m with
  | 1 => 31 | 2 => if isLeapYear y then 29 else 28 | 3 => 31 | 4 => 30
  | 5 => 31 | 6 => 30 | 7 => 31 | 8 => 31 | 9 => 30 | 10 => 31
  | 11 => 30 | 12 => 31
  | _ => 0

/-- Validity check of chrono `NaiveDate::from_ymd_opt` (year limits are
chrono's `MIN_YEAR = i32::MIN >> 13` and `MAX_YEAR = i32::MAX >> 13`). -/
def isValidYmd (y : Int) (m d : Nat) : Bool :=
  -262144 ≤ y && y ≤ 262143 && 1 ≤ m && m ≤ 12 && 1 ≤ d && d ≤ daysInMonth y m

/-- Validity check of chrono `NaiveTime::from_hms_milli_opt`: the millisecond
part may reach 1999 to represent a leap second. -/
def isValidHmsMilli (h mi s ms : Nat) : Bool :=
  h ≤ 23 && mi ≤ 59 && s ≤ 59 && ms ≤ 1999

/-! ### src/sources/orl/parse_timestamp.rs — the custom state machine -/

/-- The states of `parse_timestamp`'s scanner. -/
inductive TsState where
  | tsStart | tsYear | tsMonth | tsDay | tsTime | tsHour | tsMinute
  | tsSecond | tsMillisecond
deriving DecidableEq, Repr

/-- The mutable accumulator of `parse_timestamp` (`year: i32`, the rest
`u32`). -/
@[ext]
structure TsAcc where
  year : Int
  month : Nat
  day : Nat
  hour : Nat
  minute : Nat
  second : Nat
  millisecond : Nat
deriving DecidableEq, Repr

/-- The character loop of `parse_timestamp` (src/sources/orl/parse_timestamp.rs
lines 35-127): returns the accumulated fields when the loop ends in the
`Second` or `Millisecond` state (by exhaustion or by the whitespace `break`),
`none` on any `bail!`.  Integer accumulation wraps as in release-mode Rust. -/
def tsRun (st : TsState) (a : TsAcc) : Str → Option TsAcc
  | [] =>
    match st with
    | .tsSecond => some a
    | .tsMillisecond => some a
    | _ => none
  | c :: cs =>
    match st with
    | .tsStart =>
      if isAsciiDigit c then tsRun .tsYear { a with year := (toDigit c : Int) } cs
      else if rustIsWhitespace c then tsRun .tsStart a cs
      else none
    | .tsYear =>
      if isAsciiDigit c then
        tsRun .tsYear { a with year := wrapI32 (a.year * 10 + (toDigit c : Int)) } cs
      else if c = '-' then tsRun .tsMonth a cs
      else none
    | .tsMonth =>
      if isAsciiDigit c then
        tsRun .tsMonth { a with month := wrapU32 (a.month * 10 + toDigit c) } cs
      else if c = '-' then tsRun .tsDay a cs
      else none
    | .tsDay =>
      if isAsciiDigit c then
        tsRun .tsDay { a with day := wrapU32 (a.day * 10 + toDigit c) } cs
      else if c = ' ' then tsRun .tsTime a cs
      else none
    | .tsTime =>
      if isAsciiDigit c then
        tsRun .tsHour { a with hour := wrapU32 (a.hour * 10 + toDigit c) } cs
      else if rustIsWhitespace c then tsRun .tsTime a cs
      else none
    | .tsHour =>
      if isAsciiDigit c then
        tsRun .tsHour { a with hour := wrapU32 (a.hour * 10 + toDigit c) } cs
      else if c = ':' then tsRun .tsMinute a cs
      else none
    | .tsMinute =>
      if isAsciiDigit c then
        tsRun .tsMinute { a with minute := wrapU32 (a.minute * 10 + toDigit c) } cs
      else if c = ':' then tsRun .tsSecond a cs
      else none
    | .tsSecond =>
      if isAsciiDigit c then
        tsRun .tsSecond { a with second := wrapU32 (a.second * 10 + toDigit c) } cs
      else if c = '.' then tsRun .tsMillisecond a cs
      else if rustIsWhitespace c then some a
      else none
    | .tsMillisecond =>
      if isAsciiDigit c then
        tsRun .tsMillisecond { a with millisecond := wrapU32 (a.millisecond * 10 + toDigit c) } cs
      else if rustIsWhitespace c then some a
      else none

/-- The zero-initialised accumulator. -/
def tsAcc0 : TsAcc := ⟨0, 0, 0, 0, 0, 0, 0⟩

/-- `parse_timestamp` (src/sources/orl/parse_timestamp.rs): the scanner
followed by chrono's `from_ymd_opt` / `from_hms_milli_opt` validity checks. -/
def parse_timestamp (timestamp_str : Str) : Option NaiveDateTime :=
  match tsRun .tsStart tsAcc0 timestamp_str with
  | none => none
  | some a =>
    if isValidYmd a.year a.month a.day &&
       isValidHmsMilli a.hour a.minute a.second a.millisecond then
      some ⟨a.year, a.month, a.day, a.hour, a.minute, a.second,
            a.millisecond * 1000000⟩
    else none

/-! ### chrono `NaiveDateTime::parse_from_str` (model of the external library)

`parse_timestamp_slow` delegates to chrono with the four format strings
`"%Y-%m-%d %H:%M:%S%.f"`, `"%Y-%m-%d %H:%M:%S"`, `"%Y-%m-%d %H:%M:%S%.f %Z"`
and `"%Y-%m-%d %H:%M:%S %Z"`.  The model below follows chrono 0.4's parsing
semantics: numeric items skip leading whitespace and read at most
`width` digits (4 for `%Y` without a sign, unbounded after an explicit sign,
2 for the other fields) with checked `i64` accumulation; literal items match
exactly; a space in the format consumes any amount of whitespace (including
none); `%.f` optionally consumes a dot plus at least one fractional digit,
scaling the first nine digits to nanoseconds; `%Z` consumes (and discards)
any run of non-whitespace characters, including the empty run; the whole
input must be consumed; finally `Parsed` resolution checks `hour < 24`,
`minute < 60` and `second ≤ 60`, mapping `second = 60` to a leap second
(second 59 with the nanosecond fraction raised by `10^9`). -/

/-- chrono `scan::number` digit loop: consume up to `fuel` more digits with
checked `i64` accumulation. -/
def scanNumGo (fuel : Nat) (n : Nat) (s : Str) : Option (Nat × Str) :=
  match fuel, s with
  | 0, rest => some (n, rest)
  | _ + 1, [] => some (n, [])
  | fuel + 1, c :: cs =>
    if isAsciiDigit c then
      if n * 10 + toDigit c ≤ 9223372036854775807 then
        scanNumGo fuel (n * 10 + toDigit c) cs
      else none
    else some (n, c :: cs)

/-- chrono `scan::number(s, 1, maxWidth)`: at least one digit, at most
`maxWidth`. -/
def scanNumber (maxWidth : Nat) (s : Str) : Option (Nat × Str) :=
  match s with
  | [] => none
  | c :: cs =>
    if isAsciiDigit c then
      scanNumGo (maxWidth - 1) (toDigit c) cs
      else none

/-- chrono numeric-item parse for `%Y` (signed, width 4 when unsigned,
unbounded width after an explicit sign, leading whitespace skipped, result
must fit `i32` for `Parsed::set_year`). -/
def chronoYear (s : Str) : Option (Int × Str) :=
  match trimStart s with
  | [] => none
  | c :: rest =>
    if c = '-' then
      match scanNumber rest.length rest with
      | some (n, r) => if (n : Int) ≤ 2147483648 then some (-(n : Int), r) else none
      | none => none
    else if c = '+' then
      match scanNumber rest.length rest with
      | some (n, r) => if (n : Int) ≤ 2147483647 then some ((n : Int), r) else none
      | none => none
    else
      match scanNumber 4 (c :: rest) with
      | some (n, r) => some ((n : Int), r)
      | none => none

/-- chrono numeric-item parse for the two-digit fields (leading whitespace
skipped, width 2). -/
def chronoNum2 (s : Str) : Option (Nat × Str) :=
  scanNumber 2 (trimStart s)

/-- chrono literal item: exact match, no whitespace skipping. -/
def expectChar (c : Char) (s : Str) : Option Str :=
  match s with
  | [] => none
  | c' :: cs => if c' = c then some cs else none

/-- chrono `scan::nanosecond`: at least one and at most nine digits scaled to
nanoseconds, any further digits skipped. -/
def chronoNanos (s : Str) : Option (Nat × Str) :=
  match scanNumber 9 s with
  | none => none
  | some (n, r) =>
    let consumed := s.length - r.length
    some (n * 10 ^ (9 - consumed), r.dropWhile isAsciiDigit)

/-- chrono `%.f` fixed item: optionally a dot followed by fractional digits. -/
def chronoDotF (s : Str) : Option (Nat × Str) :=
  match s with
  | [] => some (0, [])
  | c :: rest =>
    if c = '.' then
      match chronoNanos rest with
      | some (v, r) => some (v, r)
      | none => none
    else some (0, c :: rest)

/-- chrono `%Z` fixed item: skip a (possibly empty) run of non-whitespace
characters. -/
def chronoTzName (s : Str) : Str :=
  s.dropWhile (fun c => !rustIsWhitespace c)

/-- The parsed fields of the common `"%Y-%m-%d %H:%M:%S"` prefix. -/
structure ChronoFields where
  year : Int
  month : Nat
  day : Nat
  hour : Nat
  minute : Nat
  second : Nat
deriving DecidableEq, Repr

/-- Parse the common `"%Y-%m-%d %H:%M:%S"` item sequence. -/
def chronoCore (s : Str) : Option (ChronoFields × Str) :=
  match chronoYear s with
  | none => none
  | some (y, s) =>
    match expectChar '-' s with
    | none => none
    | some s =>
      match chronoNum2 s with
      | none => none
      | some (mo, s) =>
        match expectChar '-' s with
        | none => none
        | some s =>
          match chronoNum2 s with
          | none => none
          | some (d, s) =>
            match chronoNum2 (trimStart s) with
            | none => none
            | some (h, s) =>
              match expectChar ':' s with
              | none => none
              | some s =>
                match chronoNum2 s with
                | none => none
                | some (mi, s) =>
                  match expectChar ':' s with
                  | none => none
                  | some s =>
                    match chronoNum2 s with
                    | none => none
                    | some (sec, s) => some (⟨y, mo, d, h, mi, sec⟩, s)

/-- chrono `Parsed` resolution to a `NaiveDateTime`: date validity via
`from_ymd_opt`, `hour < 24`, `minute < 60`, and `second = 60` accepted as a
leap second. -/
def chronoResolve (f : ChronoFields) (nano : Nat) : Option NaiveDateTime :=
  if isValidYmd f.year f.month f.day && f.hour ≤ 23 && f.minute ≤ 59 then
    if f.second ≤ 59 then
      some ⟨f.year, f.month, f.day, f.hour, f.minute, f.second, nano⟩
    else if f.second = 60 then
      some ⟨f.year, f.month, f.day, f.hour, f.minute, 59, nano + 1000000000⟩
    else none
  else none

/-- `parse_from_str` with format `"%Y-%m-%d %H:%M:%S%.f"`. -/
def chronoFmtF (s : Str) : Option NaiveDateTime :=
  match chronoCore s with
  | none => none
  | some (f, s) =>
    match chronoDotF s with
    | none => none
    | some (nano, s) => if s = [] then chronoResolve f nano else none

/-- `parse_from_str` with format `"%Y-%m-%d %H:%M:%S"`. -/
def chronoFmtPlain (s : Str) : Option NaiveDateTime :=
  match chronoCore s with
  | none => none
  | some (f, s) => if s = [] then chronoResolve f 0 else none

/-- `parse_from_str` with format `"%Y-%m-%d %H:%M:%S%.f %Z"`. -/
def chronoFmtFZ (s : Str) : Option NaiveDateTime :=
  match chronoCore s with
  | none => none
  | some (f, s) =>
    match chronoDotF s with
    | none => none
    | some (nano, s) =>
      if chronoTzName (trimStart s) = [] then chronoResolve f nano else none

/-- `parse_from_str` with format `"%Y-%m-%d %H:%M:%S %Z"`. -/
def chronoFmtZ (s : Str) : Option NaiveDateTime :=
  match chronoCore s with
  | none => none
  | some (f, s) =>
    if chronoTzName (trimStart s) = [] then chronoResolve f 0 else none

/-- `parse_timestamp_slow` (src/sources/orl/parse_timestamp.rs lines 137-145):
the four chrono formats tried in order. -/
def parse_timestamp_slow (timestamp_str : Str) : Option NaiveDateTime :=
  match chronoFmtF timestamp_str with
  | some t => some t
  | none =>
    match chronoFmtPlain timestamp_str with
    | some t => some t
    | none =>
      match chronoFmtFZ timestamp_str with
      | some t => some t
      | none => chronoFmtZ timestamp_str

/-! ### src/sources/orl/line_parser.rs -/

/-- Rust `str::splitn(2, sep)` as a pair: the part before the first `sep`,
and (when `sep` occurs) the remainder after it. -/
def splitn2 (sep : Char) : Str → Str × Option Str
  | [] => ([], none)
  | c :: cs =>
    if c = sep then ([], some cs)
    else
      let p := splitn2 sep cs
      (c :: p.1, p.2)

/-- Rust `str::trim_start_matches('[')`: drop every leading `'['`. -/
def dropLeadingBrackets (s : Str) : Str := s.dropWhile (· = '[')

/-- The parsed ORL line record (src/sources/orl/line_parser.rs
`OrlLineMessage`). -/
structure OrlLineMessage where
  ts : NaiveDateTime
  username : Str
  text : Str
deriving DecidableEq, Repr

/-- `parse_message_line` (src/sources/orl/line_parser.rs lines 19-47):
split once on the first `']'`, strip leading `'['` from the first part;
split the remainder once on the first `':'`; username is trimmed and
lower-cased, the message is trimmed with newlines replaced by spaces; the
timestamp field is trimmed and parsed by `parse_timestamp`. -/
def parse_message_line (input_line : Str) : Option OrlLineMessage :=
  let parts := splitn2 ']' input_line
  let timestamp_str := dropLeadingBrackets parts.1
  match parts.2 with
  | none => none
  | some rest =>
    let um := splitn2 ':' rest
    let username := rustToLowercase (rustTrim um.1)
    match um.2 with
    | none => none
    | some messagePart =>
      let message := replaceNewlines (rustTrim messagePart)
      match parse_timestamp (rustTrim timestamp_str) with
      | none => none
      | some timestamp => some ⟨timestamp, username, message⟩

/-! ### src/events.rs — the normalized message model -/

/-- The `Usernames` variant (src/events.rs). -/
inductive Usernames where
  | Normal (s : Str)
  | System | Bits | Subscriber | GiftSub | Raid | Host | Moderation
deriving DecidableEq, Repr

/-- voca_rs `case::capitalize(subject, rest_to_lower)`: upper-case the first
grapheme and, when the flag is set, lower-case the rest (graphemes modelled
as chars, case maps at the ASCII level). -/
def case_capitalize (subject : Str) (rest_to_lower : Bool) : Str :=
  match subject with
  | [] => []
  | c :: cs => upperChar c :: (if rest_to_lower then cs.map lowerChar else cs)

/-- `SimpleMessage` (src/events.rs lines 16-23). -/
structure SimpleMessage where
  id : Option Str
  channel : Str
  timestamp : NaiveDateTime
  username : Usernames
  text : Str
deriving DecidableEq, Repr

/-- `SimpleMessage::normalize` (src/events.rs lines 26-38): capitalize the
trimmed channel, trim + lower-case a `Normal` username, trim the text; the
`id` and `timestamp` fields are carried over by the `..self.clone()`
struct update. -/
def SimpleMessage.normalize (m : SimpleMessage) : SimpleMessage :=
  let username :=
    match m.username with
    | .Normal s => .Normal (rustToLowercase (rustTrim s))
    | u => u
  { m with
    channel := case_capitalize (rustTrim m.channel) true
    username := username
    text := rustTrim m.text }

/-! ### src/formats/orl.rs — OrlLog, normalization and id generation -/

/-- `OrlLog` (src/formats/orl.rs lines 27-36); the `Raw`/`Clean` phantom
marker does not affect the runtime fields and is dropped in the model. -/
structure OrlLog where
  ts : NaiveDateTime
  username : Str
  text : Str
  channel : Str
deriving DecidableEq, Repr

/-- `OrlLog::normalize` (src/formats/orl.rs lines 76-87): lower-case the
username (no trim), trim the text and replace newlines by spaces,
capitalize the trimmed channel. -/
def OrlLog.normalize (l : OrlLog) : OrlLog :=
  { ts := l.ts
    username := rustToLowercase l.username
    text := replaceNewlines (rustTrim l.text)
    channel := case_capitalize (rustTrim l.channel) true }

/-- UTF-8 encoding of one scalar value. -/
def utf8Char (c : Char) : List Nat :=
  let n := c.toNat
  if n < 128 then [n]
  else if n < 2048 then [192 + n / 64, 128 + n % 64]
  else if n < 65536 then [224 + n / 4096, 128 + n / 64 % 64, 128 + n % 64]
  else [240 + n / 262144, 128 + n / 4096 % 64, 128 + n / 64 % 64, 128 + n % 64]

/-- The UTF-8 bytes of a string. -/
def strBytes (s : Str) : List Nat := (s.map utf8Char).flatten

/-- 32-bit rotate left of a value `< 2^32`. -/
def rotl32 (x r : Nat) : Nat := (x * 2 ^ r + x / 2 ^ (32 - r)) % 4294967296

/-- One XXH32 accumulator round: `v = rotl(v + lane * PRIME2, 13) * PRIME1`. -/
def xxRound (v lane : Nat) : Nat :=
  rotl32 ((v + lane * 2246822519) % 4294967296) 13 * 2654435761 % 4294967296

/-- Little-endian 32-bit word from four bytes. -/
def le32 (b0 b1 b2 b3 : Nat) : Nat := b0 + b1 * 256 + b2 * 65536 + b3 * 16777216

/-- The XXH32 16-byte stripe loop. -/
def xxStripes (v1 v2 v3 v4 : Nat) : List Nat → (Nat × Nat × Nat × Nat × List Nat)
  | b0 :: b1 :: b2 :: b3 :: b4 :: b5 :: b6 :: b7 ::
    b8 :: b9 :: b10 :: b11 :: b12 :: b13 :: b14 :: b15 :: rest =>
    xxStripes (xxRound v1 (le32 b0 b1 b2 b3)) (xxRound v2 (le32 b4 b5 b6 b7))
      (xxRound v3 (le32 b8 b9 b10 b11)) (xxRound v4 (le32 b12 b13 b14 b15)) rest
  | rest => (v1, v2, v3, v4, rest)

/-- The XXH32 4-byte tail loop: `h = rotl(h + word * PRIME3, 17) * PRIME4`. -/
def xxTail4 (h : Nat) : List Nat → Nat × List Nat
  | b0 :: b1 :: b2 :: b3 :: rest =>
    xxTail4 (rotl32 ((h + le32 b0 b1 b2 b3 * 3266489917) % 4294967296) 17
      * 668265263 % 4294967296) rest
  | rest => (h, rest)

/-- The XXH32 byte tail loop: `h = rotl(h + byte * PRIME5, 11) * PRIME1`. -/
def xxTail1 (h : Nat) : List Nat → Nat
  | [] => h
  | b :: rest =>
    xxTail1 (rotl32 ((h + b * 374761393) % 4294967296) 11
      * 2654435761 % 4294967296) rest

/-- The XXH32 final avalanche. -/
def xxAvalanche (h : Nat) : Nat :=
  let h := Nat.xor h (h / 32768)
  let h := h * 2246822519 % 4294967296
  let h := Nat.xor h (h / 8192)
  let h := h * 3266489917 % 4294967296
  Nat.xor h (h / 65536)

/-- XXH32 of a byte sequence with the given seed. -/
def xxh32 (seed : Nat) (bytes : List Nat) : Nat :=
  let len := bytes.length
  let hAndRest :=
    if 16 ≤ len then
      let r := xxStripes ((seed + 2654435761 + 2246822519) % 4294967296)
        ((seed + 2246822519) % 4294967296) (seed % 4294967296)
        ((seed + 4294967296 - 2654435761) % 4294967296) bytes
      ((rotl32 r.1 1 + rotl32 r.2.1 7 + rotl32 r.2.2.1 12 + rotl32 r.2.2.2.1 18)
         % 4294967296, r.2.2.2.2)
    else ((seed + 374761393) % 4294967296, bytes)
  let t4 := xxTail4 ((hAndRest.1 + len) % 4294967296) hAndRest.2
  xxAvalanche (xxTail1 t4.1 t4.2)

/-- The 32-bit hash `fn hash` of src/formats/orl.rs lines 40-44 applied to a
`&str`: Rust's `Hash for str` feeds the UTF-8 bytes followed by a `0xFF`
terminator byte to the hasher, and `fasthash::xx::Hasher32` computes XXH32
with seed 0 over the fed bytes. -/
def rustStrHash (s : Str) : Nat := xxh32 0 (strBytes s ++ [255])

/-- Lowercase hex rendering of a `Nat` (Rust format `{:x}` — like
`Nat.toDigits 16`). -/
def natToHex (n : Nat) : Str := Nat.toDigits 16 n

/-- Rust format `{:0>width$}`: left-pad with `'0'` to the given width. -/
def padLeftZeros (s : Str) (width : Nat) : Str :=
  List.replicate (width - s.length) '0' ++ s

/-- `squash_hash` (src/formats/orl.rs lines 46-74).  The two `assert!`
statements are modelled by returning `none` when violated. -/
def squash_hash (s : Str) (max_characters : Nat) : Option Str :=
  if max_characters ≤ 8 then
    let hash_result := rustStrHash s
    let less_precision := 32 - max_characters * 4
    if less_precision < 32 then
      let reduced_hash := hash_result / 2 ^ less_precision
      let precision_bits := 32 - less_precision
      let max_len_hex := (precision_bits + 4 - 1) / 4
      some (padLeftZeros (natToHex reduced_hash) max_len_hex)
    else none
  else none

/-- Decimal rendering of a `Nat`. -/
def natToDec (n : Nat) : Str := Nat.toDigits 10 n

/-- Rust `i64::to_string`. -/
def intToDec (i : Int) : Str :=
  if i < 0 then '-' :: natToDec i.natAbs else natToDec i.natAbs

/-- Days from the civil epoch 1970-01-01 (Howard Hinnant's algorithm, as used
by chrono's day-number representation). -/
def daysFromCivil (y : Int) (m d : Nat) : Int :=
  let y' : Int := if m ≤ 2 then y - 1 else y
  let era : Int := y' / 400
  let yoe : Int := y' - era * 400
  let mp : Int := if 2 < m then (m : Int) - 3 else (m : Int) + 9
  let doy : Int := (153 * mp + 2) / 5 + (d : Int) - 1
  let doe : Int := yoe * 365 + yoe / 4 - yoe / 100 + doy
  era * 146097 + doe - 719468

/-- chrono `DateTime::timestamp_millis`. -/
def timestamp_millis (t : NaiveDateTime) : Int :=
  (daysFromCivil t.year t.month t.day * 86400 +
    (t.hour : Int) * 3600 + (t.minute : Int) * 60 + (t.second : Int)) * 1000 +
    (t.nano : Int) / 1000000

/-- `OrlLog::get_id` (src/formats/orl.rs lines 89-101): the millisecond
timestamp and the three squashed hashes joined by `'-'`. -/
def OrlLog.get_id (l : OrlLog) : Option Str :=
  let ts_str := intToDec (timestamp_millis l.ts)
  match squash_hash l.channel 8, squash_hash l.username 8, squash_hash l.text 8 with
  | some hash_channel, some hash_username, some hash_text =>
    some (ts_str ++ '-' :: hash_channel ++ '-' :: hash_username ++ '-' :: hash_text)
  | _, _, _ => none

/-! ### src/run_scrape_ingester.rs — the fan-out dispatcher

The dispatcher loop (lines 69-84) is parametrised by the sink type `σ` and
the observable outcome `write : σ → ε → Bool` of each sink's `write` call
(`true` = `Ok`, `false` = `Err`).  The sink list is `List (Option σ)`,
mirroring `Vec<Option<Writers>>`. -/

/-- The indices at which the loop body performs a `write` call for one event:
every index holding `Some(writer)`, in order (`writers.iter().enumerate()`
with `if let Some(writer)`), starting at index `k`. -/
def writeCallsFrom (k : Nat) : List (Option σ) → List Nat
  | [] => []
  | none :: ws => writeCallsFrom (k + 1) ws
  | some _ :: ws => k :: writeCallsFrom (k + 1) ws

/-- The `write` calls one received event produces. -/
def writeCalls (writers : List (Option σ)) : List Nat := writeCallsFrom 0 writers

/-- The `to_remove` list built by the loop body for one event: the indices of
active writers whose `write` returned an error, starting at index `k`. -/
def writeErrorsFrom (write : σ → ε → Bool) (e : ε) (k : Nat) :
    List (Option σ) → List Nat
  | [] => []
  | none :: ws => writeErrorsFrom write e (k + 1) ws
  | some s :: ws =>
    if write s e then writeErrorsFrom write e (k + 1) ws
    else k :: writeErrorsFrom write e (k + 1) ws

/-- The `to_remove` list for one event. -/
def writeErrors (write : σ → ε → Bool) (writers : List (Option σ)) (e : ε) :
    List Nat :=
  writeErrorsFrom write e 0 writers

/-- One iteration of the dispatcher loop: write the event to every active
sink, then set every index in `to_remove` to `None`
(src/run_scrape_ingester.rs lines 69-84). -/
def processEvent (write : σ → ε → Bool) (writers : List (Option σ)) (e : ε) :
    List (Option σ) :=
  (writeErrors write writers e).foldl (fun ws i => ws.set i none) writers

/-- The dispatcher loop over a finite event sequence. -/
def processEvents (write : σ → ε → Bool) (writers : List (Option σ))
    (es : List ε) : List (Option σ) :=
  es.foldl (processEvent write) writers

/-! ### src/adapters/elasticsearch.rs — the worker flush loop

`ElasticsearchWorker::run_writer` (lines 109-148).  `period_seconds` is an
`f64` that is set to `MIN_PERIOD_SECONDS` at construction; since the loop
never assigns to it (the adaptive `* 1.2` / `* 0.8` updates at lines 122 and
130 are commented out in the source), it is modelled exactly as a rational.
The batch contents play no role in the flush decision, so the batch is
modelled by its length; the elapsed wall-clock seconds since the last flush
are an input of each iteration. -/

def MIN_PERIOD_SECONDS : ℚ := 2

def MAX_BATCH_SIZE : Nat := 8192

structure EsLoopState where
  period_seconds : ℚ
  batch_len : Nat
deriving DecidableEq, Repr

/-- The worker state right after `ElasticsearchWriter::new`
(src/adapters/elasticsearch.rs line 42): `period_seconds` starts at
`MIN_PERIOD_SECONDS` with an empty batch. -/
def esInit : EsLoopState := ⟨MIN_PERIOD_SECONDS, 0⟩

/-- One iteration of the `run_writer` receive loop: push the message, decide
`should_fire` (full batch first, elapsed period second), flush if so.
Returns the new state together with the flush trigger: `some true` when the
flush was triggered by a full batch, `some false` when by the elapsed
period, `none` when no flush fired. -/
def esStep (st : EsLoopState) (elapsed : ℚ) : EsLoopState × Option Bool :=
  let batch_len := st.batch_len + 1
  if MAX_BATCH_SIZE ≤ batch_len then
    ({ period_seconds := st.period_seconds, batch_len := 0 }, some true)
  else if st.period_seconds < elapsed then
    ({ period_seconds := st.period_seconds, batch_len := 0 }, some false)
  else ({ st with batch_len := batch_len }, none)

/-- The receive loop over a finite sequence of messages, each annotated with
the elapsed seconds since the last flush at the moment it is received. -/
def esRun (st : EsLoopState) (els : List ℚ) : EsLoopState :=
  els.foldl (fun s e => (esStep s e).1) st

/-! ### Spec-side normalization (for comparison with the code)

The following definitions follow the words of the specification sentence
"channel → capitalize first letter of trimmed input; username (when Normal)
→ trim + ASCII lower-case; text → trim", read literally: only the first
letter of the channel is changed, and the same field mapping is claimed for
both normalization operations. -/

/-- The trimmed input with (only) its first letter capitalized. -/
def capFirstLetter (s : Str) : Str :=
  match s with
  | [] => []
  | c :: cs => upperChar c :: cs

/-- `SimpleMessage` normalization as the claim's words state it. -/
def simpleNormalizeClaimed (m : SimpleMessage) : SimpleMessage :=
  { m with
    channel := capFirstLetter (rustTrim m.channel)
    username :=
      match m.username with
      | .Normal s => .Normal (rustToLowercase (rustTrim s))
      | u => u
    text := rustTrim m.text }

/-- `OrlLog` normalization as the claim's words state it (same field
mapping: trimmed channel with first letter capitalized, trimmed lower-cased
username, trimmed text). -/
def orlNormalizeClaimed (l : OrlLog) : OrlLog :=
  { ts := l.ts
    username := rustToLowercase (rustTrim l.username)
    text := rustTrim l.text
    channel := capFirstLetter (rustTrim l.channel) }

/-- The amended channel rule: trimmed input with the first letter upper-cased
and the remaining characters lower-cased. -/
def capFirstRestLower (s : Str) : Str :=
  match s with
  | [] => []
  | c :: cs => upperChar c :: cs.map lowerChar

/-- `SimpleMessage` normalization as amended: channel trimmed then first
letter upper-cased and rest lower-cased; Normal username trimmed and
lower-cased; text trimmed. -/
def simpleNormalizeAmended (m : SimpleMessage) : SimpleMessage :=
  { m with
    channel := capFirstRestLower (rustTrim m.channel)
    username :=
      match m.username with
      | .Normal s => .Normal (rustToLowercase (rustTrim s))
      | u => u
    text := rustTrim m.text }

/-- `OrlLog` normalization as amended: channel as above; username lower-cased
without trimming; text trimmed with newlines replaced by spaces. -/
def orlNormalizeAmended (l : OrlLog) : OrlLog :=
  { ts := l.ts
    username := rustToLowercase l.username
    text := replaceNewlines (rustTrim l.text)
    channel := capFirstRestLower (rustTrim l.channel) }

/-! ### Claim-side description of the line split (claims C3, C4) -/

/-- The prefix of `s` before the first occurrence of `sep` (all of `s` when
`sep` does not occur). -/
def beforeChar (sep : Char) (s : Str) : Str :=
  s.takeWhile (fun c => !(c == sep))

/-- The suffix of `s` after the first occurrence of `sep`. -/
def afterChar (sep : Char) (s : Str) : Str :=
  (s.dropWhile (fun c => !(c == sep))).drop 1

/-! ### Canonical timestamp strings (claims C2, C9)

`canonicalTs y m d h mi s ms utc wsl wsr` renders the claim's canonical form
`YYYY-MM-DD HH:MM:SS[.mmm][ UTC]` with surrounding whitespace `wsl`/`wsr`,
each numeric field zero-padded to its fixed width. -/

/-- The ASCII digit character of `k < 10`. -/
def digitChar48 (k : Nat) : Char := Char.ofNat (48 + k)

/-- Two-digit zero-padded decimal rendering. -/
def pad2 (n : Nat) : Str := [digitChar48 (n / 10), digitChar48 (n % 10)]

/-- Three-digit zero-padded decimal rendering. -/
def pad3 (n : Nat) : Str :=
  [digitChar48 (n / 100), digitChar48 (n / 10 % 10), digitChar48 (n % 10)]

/-- Four-digit zero-padded decimal rendering. -/
def pad4 (n : Nat) : Str :=
  [digitChar48 (n / 1000), digitChar48 (n / 100 % 10), digitChar48 (n / 10 % 10),
   digitChar48 (n % 10)]

/-- The canonical `YYYY-MM-DD HH:MM:SS` core. -/
def canonicalCore (y m d h mi s : Nat) : Str :=
  pad4 y ++ '-' :: pad2 m ++ '-' :: pad2 d ++ ' ' :: pad2 h ++ ':' :: pad2 mi ++
    ':' :: pad2 s

/-- The optional `.mmm` fragment. -/
def msPart (ms : Option Nat) : Str :=
  match ms with
  | some v => '.' :: pad3 v
  | none => []

/-- A full canonical timestamp string. -/
def canonicalTs (y m d h mi s : Nat) (ms : Option Nat) (utc : Bool)
    (wsl wsr : Str) : Str :=
  wsl ++ canonicalCore y m d h mi s ++ msPart ms ++
    (if utc then [' ', 'U', 'T', 'C'] else []) ++ wsr

end TL2

section Tests
open TL2
example : parse_timestamp (str "2021-08-03 17:40:27.313 UTC") =
    some ⟨2021, 8, 3, 17, 40, 27, 313000000⟩ := by decide
example : parse_timestamp (str "2021-08-03 17:40:27") =
    some ⟨2021, 8, 3, 17, 40, 27, 0⟩ := by decide
example : parse_timestamp (str "") = none := by decide
example : parse_timestamp (str "2021-08-03") = none := by decide
example : parse_timestamp (str "2021-08-03T17:40:27.313 UTC") = none := by decide
example : parse_timestamp (str "2022-02-29 12:34:56 UTC") = none := by decide
example : parse_timestamp (str "2020-02-29 12:34:56 UTC") =
    some ⟨2020, 2, 29, 12, 34, 56, 0⟩ := by decide
example : parse_timestamp (str "2021-08-03 17:40:27 banana") =
    some ⟨2021, 8, 3, 17, 40, 27, 0⟩ := by decide
-- slow path sanity checks (matching the repository's test cases)
example : parse_timestamp_slow (str "2021-08-03 17:40:27.313 UTC") =
    some ⟨2021, 8, 3, 17, 40, 27, 313000000⟩ := by decide
example : parse_timestamp_slow (str "2021-08-03 17:40:27.313") =
    some ⟨2021, 8, 3, 17, 40, 27, 313000000⟩ := by decide
example : parse_timestamp_slow (str "2021-08-03 17:40:27") =
    some ⟨2021, 8, 3, 17, 40, 27, 0⟩ := by decide
example : parse_timestamp_slow (str "2021-08-03 17:40:27 UTC") =
    some ⟨2021, 8, 3, 17, 40, 27, 0⟩ := by decide
example : parse_timestamp_slow (str "9999-12-31 23:59:59.999 UTC") =
    some ⟨9999, 12, 31, 23, 59, 59, 999000000⟩ := by decide
example : parse_timestamp_slow (str "") = none := by decide
example : parse_timestamp_slow (str " ") = none := by decide
example : parse_timestamp_slow (str "2021-08-03") = none := by decide
example : parse_timestamp_slow (str "17:40:27 UTC") = none := by decide
example : parse_timestamp_slow (str "2021-08-03T17:40:27.313 UTC") = none := by decide
example : parse_timestamp_slow (str "2021-08-32 17:40:27 UTC") = none := by decide
example : parse_timestamp_slow (str "2021-13-03 17:40:27 UTC") = none := by decide
example : parse_timestamp_slow (str "2021-08-03 24:40:27 UTC") = none := by decide
example : parse_timestamp_slow (str "2021-08-03 17:60:27 UTC") = none := by decide
example : parse_timestamp_slow (str "2021-08-03 17:40:68 UTC") = none := by decide
example : parse_timestamp_slow (str "2022-02-29 12:34:56 UTC") = none := by decide
-- the two divergences between the fast and the slow path
example : parse_timestamp_slow (str "2021-08-03 17:40:27 UTC ") = none := by decide
example : parse_timestamp (str "2021-08-03 17:40:27 UTC ") =
    some ⟨2021, 8, 3, 17, 40, 27, 0⟩ := by decide
example : parse_timestamp_slow (str "2021-08-03 17:40:60") =
    some ⟨2021, 8, 3, 17, 40, 59, 1000000000⟩ := by decide
example : parse_timestamp (str "2021-08-03 17:40:60") = none := by decide
-- surrounding whitespace accepted by both
example : parse_timestamp_slow (str "  2021-08-03 17:40:27.313 UTC") =
    some ⟨2021, 8, 3, 17, 40, 27, 313000000⟩ := by decide
example : parse_timestamp_slow (str " 2021-08-03 17:40:27 ") =
    some ⟨2021, 8, 3, 17, 40, 27, 0⟩ := by decide
-- XXH32 known-answer tests (seed 0)
example : xxh32 0 [] = 0x02CC5D05 := by decide
example : xxh32 0 (strBytes (str "a")) = 0x550D7456 := by decide
example : xxh32 0 (strBytes (str "abc")) = 0x32D153FF := by decide
example : xxh32 0 (strBytes (str "Nobody inspects the spammish repetition")) =
    0xE2293B2F := by decide
-- line parser sanity
example : parse_message_line (str "[2021-08-03 17:40:27.313 UTC] jOhNpYp: Example message") =
    some ⟨⟨2021, 8, 3, 17, 40, 27, 313000000⟩, str "johnpyp", str "Example message"⟩ := by
  decide
example :
    (parse_message_line (str "[2021-08-03 17:40:27 UTC]   tEst Cat  :   Example message   ")).map
      OrlLineMessage.username = some (str "test cat") := by decide
example : parse_message_line (str "[2021-08-03 17:40:27 UTC] user:") =
    some ⟨⟨2021, 8, 3, 17, 40, 27, 0⟩, str "user", []⟩ := by decide
example : parse_message_line (str "[2021-08-03 17:40:27 UTC] user") = none := by decide
example : parse_message_line (str "2021-08-03 17:40:27 UTC user: message") = none := by decide
-- timestamp_millis sanity checks
example : timestamp_millis ⟨1970, 1, 1, 0, 0, 0, 0⟩ = 0 := by decide
example : timestamp_millis ⟨2021, 8, 3, 17, 40, 27, 313000000⟩ = 1628012427313 := by decide
example : timestamp_millis ⟨2000, 3, 1, 0, 0, 0, 0⟩ = 951868800000 := by decide
example : timestamp_millis ⟨0, 1, 1, 0, 0, 0, 0⟩ = -62167219200000 := by decide
example : timestamp_millis ⟨1969, 12, 31, 23, 59, 59, 0⟩ = -1000 := by decide
end Tests

namespace TL2

/-! ### Character-level lemmas -/

lemma toNat_ofNat_lt {n : Nat} (h : n < 55296) : (Char.ofNat n).toNat = n := by
  simp [Char.ofNat, Nat.isValidChar, h, Char.ofNatAux, Char.toNat, UInt32.toNat,
    UInt32.ofNatCore]

lemma lowerChar_toNat_of_upper {c : Char} (h : 65 ≤ c.toNat ∧ c.toNat ≤ 90) :
    (lowerChar c).toNat = c.toNat + 32 := by
  rw [lowerChar, if_pos h]; exact toNat_ofNat_lt (by omega)

lemma lowerChar_eq_of_not {c : Char} (h : ¬(65 ≤ c.toNat ∧ c.toNat ≤ 90)) :
    lowerChar c = c := by
  rw [lowerChar, if_neg h]

lemma lowerChar_not_upper (c : Char) :
    ¬(65 ≤ (lowerChar c).toNat ∧ (lowerChar c).toNat ≤ 90) := by
  by_cases h : 65 ≤ c.toNat ∧ c.toNat ≤ 90
  · rw [lowerChar_toNat_of_upper h]; omega
  · rw [lowerChar_eq_of_not h]; exact h

lemma lowerChar_idem (c : Char) : lowerChar (lowerChar c) = lowerChar c :=
  lowerChar_eq_of_not (lowerChar_not_upper c)

lemma upperChar_toNat_of_lower {c : Char} (h : 97 ≤ c.toNat ∧ c.toNat ≤ 122) :
    (upperChar c).toNat = c.toNat - 32 := by
  rw [upperChar, if_pos h]; exact toNat_ofNat_lt (by omega)

lemma upperChar_eq_of_not {c : Char} (h : ¬(97 ≤ c.toNat ∧ c.toNat ≤ 122)) :
    upperChar c = c := by
  rw [upperChar, if_neg h]

lemma upperChar_not_lower (c : Char) :
    ¬(97 ≤ (upperChar c).toNat ∧ (upperChar c).toNat ≤ 122) := by
  by_cases h : 97 ≤ c.toNat ∧ c.toNat ≤ 122
  · rw [upperChar_toNat_of_lower h]; omega
  · rw [upperChar_eq_of_not h]; exact h

lemma upperChar_idem (c : Char) : upperChar (upperChar c) = upperChar c :=
  upperChar_eq_of_not (upperChar_not_lower c)

lemma ws_iff (c : Char) : rustIsWhitespace c = true ↔
    (9 ≤ c.toNat ∧ c.toNat ≤ 13) ∨ c.toNat = 32 ∨ c.toNat = 133 ∨ c.toNat = 160 ∨
    c.toNat = 5760 ∨ (8192 ≤ c.toNat ∧ c.toNat ≤ 8202) ∨ c.toNat = 8232 ∨
    c.toNat = 8233 ∨ c.toNat = 8239 ∨ c.toNat = 8287 ∨ c.toNat = 12288 := by
  simp [rustIsWhitespace]
  tauto

lemma ws_lowerChar (c : Char) : rustIsWhitespace (lowerChar c) = rustIsWhitespace c := by
  by_cases h : 65 ≤ c.toNat ∧ c.toNat ≤ 90
  · rw [Bool.eq_iff_iff, ws_iff, ws_iff, lowerChar_toNat_of_upper h]
    omega
  · rw [lowerChar_eq_of_not h]

lemma ws_upperChar (c : Char) : rustIsWhitespace (upperChar c) = rustIsWhitespace c := by
  by_cases h : 97 ≤ c.toNat ∧ c.toNat ≤ 122
  · rw [Bool.eq_iff_iff, ws_iff, ws_iff, upperChar_toNat_of_lower h]
    omega
  · rw [upperChar_eq_of_not h]

lemma ws_nlToSpace (c : Char) :
    rustIsWhitespace (if c = '\n' then ' ' else c) = rustIsWhitespace c := by
  split
  · rename_i h
    rw [h]
    decide
  · rfl

lemma nlToSpace_idem (c : Char) :
    (if (if c = '\n' then ' ' else c) = '\n' then ' ' else if c = '\n' then ' ' else c) =
      (if c = '\n' then ' ' else c) := by
  by_cases h : c = '\n' <;> simp [h]

/-! ### Trimming lemmas -/

lemma rustTrim_eq_rdrop (s : Str) :
    rustTrim s = List.rdropWhile rustIsWhitespace (trimStart s) := rfl

lemma trimStart_head_not {s : Str} {c : Char} (h : (trimStart s).head? = some c) :
    rustIsWhitespace c = false := by
  induction s with
  | nil => simp [trimStart] at h
  | cons a r ih =>
    rw [trimStart, List.dropWhile_cons] at h
    split at h
    · exact ih h
    · rename_i hw
      simp only [List.head?_cons, Option.some.injEq] at h
      subst h
      simpa using hw

lemma rustTrim_head_not {s : Str} {c : Char} (h : (rustTrim s).head? = some c) :
    rustIsWhitespace c = false := by
  obtain ⟨t, ht⟩ : rustTrim s <+: trimStart s := by
    rw [rustTrim_eq_rdrop]; exact List.rdropWhile_prefix _ _
  cases hrt : rustTrim s with
  | nil => rw [hrt] at h; simp at h
  | cons a r =>
    rw [hrt] at h ht
    simp only [List.head?_cons, Option.some.injEq] at h
    subst h
    exact trimStart_head_not (s := s) (by rw [← ht]; simp)

lemma rustTrim_last_not {s : Str} {c : Char} (h : (rustTrim s).getLast? = some c) :
    rustIsWhitespace c = false := by
  by_cases hne : List.rdropWhile rustIsWhitespace (trimStart s) = []
  · rw [rustTrim_eq_rdrop, hne] at h; simp at h
  · have hlast := List.rdropWhile_last_not rustIsWhitespace (trimStart s) hne
    rw [rustTrim_eq_rdrop, List.getLast?_eq_getLast _ hne] at h
    simp only [Option.some.injEq] at h
    subst h
    simpa using hlast

lemma rustTrim_eq_self {l : Str}
    (h1 : ∀ c, l.head? = some c → rustIsWhitespace c = false)
    (h2 : ∀ c, l.getLast? = some c → rustIsWhitespace c = false) :
    rustTrim l = l := by
  have hd : trimStart l = l := by
    cases l with
    | nil => rfl
    | cons a r =>
      have := h1 a rfl
      simp [trimStart, List.dropWhile_cons, this]
  rw [rustTrim_eq_rdrop, hd, List.rdropWhile_eq_self_iff]
  intro hl
  have := h2 _ (List.getLast?_eq_getLast l hl)
  simp [this]

lemma rustTrim_idem (s : Str) : rustTrim (rustTrim s) = rustTrim s :=
  rustTrim_eq_self (fun _ h => rustTrim_head_not h) (fun _ h => rustTrim_last_not h)

lemma rustTrim_map_rustTrim {f : Char → Char}
    (hf : ∀ c, rustIsWhitespace (f c) = rustIsWhitespace c) (s : Str) :
    rustTrim ((rustTrim s).map f) = (rustTrim s).map f := by
  apply rustTrim_eq_self
  · intro c h
    rw [List.head?_map] at h
    cases hh : (rustTrim s).head? with
    | none => rw [hh] at h; simp at h
    | some a =>
      rw [hh] at h
      simp only [Option.map_some', Option.some.injEq] at h
      subst h
      rw [hf]
      exact rustTrim_head_not hh
  · intro c h
    rw [List.getLast?_map] at h
    cases hh : (rustTrim s).getLast? with
    | none => rw [hh] at h; simp at h
    | some a =>
      rw [hh] at h
      simp only [Option.map_some', Option.some.injEq] at h
      subst h
      rw [hf]
      exact rustTrim_last_not hh

lemma map_idem_of_pointwise {f : Char → Char} (hf : ∀ c, f (f c) = f c) (s : Str) :
    (s.map f).map f = s.map f := by
  rw [List.map_map]
  exact List.map_congr_left (fun a _ => hf a)

lemma cap_trim_idem (c : Str) :
    case_capitalize (rustTrim (case_capitalize (rustTrim c) true)) true =
      case_capitalize (rustTrim c) true := by
  cases ht : rustTrim c with
  | nil => rfl
  | cons a r =>
    have hhead : rustIsWhitespace a = false :=
      rustTrim_head_not (s := c) (by rw [ht]; rfl)
    have hcap : case_capitalize (a :: r) true = upperChar a :: r.map lowerChar := rfl
    have hinner : rustTrim (upperChar a :: r.map lowerChar) =
        upperChar a :: r.map lowerChar := by
      apply rustTrim_eq_self
      · intro x hx
        simp only [List.head?_cons, Option.some.injEq] at hx
        subst hx
        rw [ws_upperChar]
        exact hhead
      · intro x hx
        cases r with
        | nil =>
          simp only [List.map_nil, List.getLast?_singleton, Option.some.injEq] at hx
          subst hx
          rw [ws_upperChar]
          exact hhead
        | cons b rb =>
          have hlast : ((b :: rb).map lowerChar).getLast? =
              ((b :: rb).getLast?).map lowerChar := List.getLast?_map _ _
          have hcons : (upperChar a :: (b :: rb).map lowerChar).getLast? =
              ((b :: rb).map lowerChar).getLast? := by
            simp [List.getLast?_cons_cons]
          rw [hcons, hlast] at hx
          have hb : (b :: rb).getLast? = some ((b :: rb).getLast (by simp)) :=
            List.getLast?_eq_getLast _ _
          rw [hb] at hx
          simp only [Option.map_some', Option.some.injEq] at hx
          subst hx
          rw [ws_lowerChar]
          apply rustTrim_last_not (s := c)
          rw [ht, List.getLast?_cons_cons, hb]
    rw [hcap, hinner]
    show upperChar (upperChar a) :: (r.map lowerChar).map lowerChar = _
    rw [upperChar_idem, map_idem_of_pointwise lowerChar_idem]

/-- Claim C10: `SimpleMessage::normalize` leaves the `id` and `timestamp`
fields unchanged; only `channel`, `username` and `text` are rebuilt. -/
theorem c10_normalize_frame (m : SimpleMessage) :
    (SimpleMessage.normalize m).id = m.id ∧
    (SimpleMessage.normalize m).timestamp = m.timestamp :=
  ⟨rfl, rfl⟩

/-- Claim C10 witness at a concrete message. -/
theorem c10_normalize_frame_witness :
    (SimpleMessage.normalize
      ⟨some (str "x"), str " chan ", ⟨2021, 8, 3, 0, 0, 0, 0⟩,
        .Normal (str " A "), str " t "⟩).id = some (str "x") := by
  rw [(c10_normalize_frame _).1]

lemma lower_trim_idem (s : Str) :
    rustToLowercase (rustTrim (rustToLowercase (rustTrim s))) =
      rustToLowercase (rustTrim s) := by
  simp only [rustToLowercase]
  rw [rustTrim_map_rustTrim ws_lowerChar, map_idem_of_pointwise lowerChar_idem]

lemma trim_nl_idem (t : Str) :
    replaceNewlines (rustTrim (replaceNewlines (rustTrim t))) =
      replaceNewlines (rustTrim t) := by
  simp only [replaceNewlines]
  rw [rustTrim_map_rustTrim ws_nlToSpace, map_idem_of_pointwise nlToSpace_idem]

/-- Claim C7: normalization is idempotent — `normalize (normalize m) =
normalize m` for `SimpleMessage`, and applying the `OrlLog` field
transformations a second time to a normalized log changes nothing. -/
theorem c7_normalize_idempotent :
    (∀ m : SimpleMessage, (SimpleMessage.normalize m).normalize =
      SimpleMessage.normalize m) ∧
    (∀ l : OrlLog, (OrlLog.normalize l).normalize = OrlLog.normalize l) := by
  constructor
  · intro m
    cases m with
    | mk id channel timestamp username text =>
      cases username <;>
        simp [SimpleMessage.normalize, cap_trim_idem, lower_trim_idem, rustTrim_idem]
  · intro l
    cases l with
    | mk ts username text channel =>
      simp [OrlLog.normalize, cap_trim_idem, trim_nl_idem, rustToLowercase,
        map_idem_of_pointwise lowerChar_idem]

/-- Claim C8 counterexample: at the log with channel `"aBC"`, username
`" Bob"` and text `"a\nb"`, `OrlLog::normalize` produces channel `"Abc"`
(rest lower-cased, not just the first letter capitalized), username
`" bob"` (not trimmed) and text `"a b"` (newline replaced), differing from
the claimed field mapping in every field. -/
theorem c8_counterexample :
    OrlLog.normalize ⟨⟨2021, 8, 3, 0, 0, 0, 0⟩, str " Bob", str "a\nb", str "aBC"⟩ =
      ⟨⟨2021, 8, 3, 0, 0, 0, 0⟩, str " bob", str "a b", str "Abc"⟩ ∧
    orlNormalizeClaimed ⟨⟨2021, 8, 3, 0, 0, 0, 0⟩, str " Bob", str "a\nb", str "aBC"⟩ =
      ⟨⟨2021, 8, 3, 0, 0, 0, 0⟩, str "bob", str "a\nb", str "ABC"⟩ ∧
    OrlLog.normalize ⟨⟨2021, 8, 3, 0, 0, 0, 0⟩, str " Bob", str "a\nb", str "aBC"⟩ ≠
      orlNormalizeClaimed ⟨⟨2021, 8, 3, 0, 0, 0, 0⟩, str " Bob", str "a\nb", str "aBC"⟩ := by
  refine ⟨by decide, by decide, by decide⟩

lemma case_capitalize_eq_capFirstRestLower (s : Str) :
    case_capitalize s true = capFirstRestLower s := by
  cases s <;> rfl

/-- Claim C8 as amended: both normalizations map the channel to the trimmed
input with the first letter upper-cased and the rest lower-cased;
`SimpleMessage::normalize` maps a Normal username to the trimmed lower-cased
input and the text to the trimmed input; `OrlLog::normalize` lower-cases the
username without trimming and trims the text while replacing newlines with
spaces. -/
theorem c8_normalize_amended :
    (∀ m : SimpleMessage, SimpleMessage.normalize m = simpleNormalizeAmended m) ∧
    (∀ l : OrlLog, OrlLog.normalize l = orlNormalizeAmended l) := by
  constructor
  · intro m
    simp [SimpleMessage.normalize, simpleNormalizeAmended,
      case_capitalize_eq_capFirstRestLower]
  · intro l
    simp [OrlLog.normalize, orlNormalizeAmended,
      case_capitalize_eq_capFirstRestLower]

lemma esStep_period (st : EsLoopState) (e : ℚ) :
    ((esStep st e).1).period_seconds = st.period_seconds := by
  rw [esStep]
  split
  · rfl
  · split <;> rfl

lemma esRun_period (st : EsLoopState) (els : List ℚ) :
    (esRun st els).period_seconds = st.period_seconds := by
  induction els generalizing st with
  | nil => rfl
  | cons e rest ih =>
    rw [esRun, List.foldl_cons]
    rw [show List.foldl (fun s e => (esStep s e).1) ((esStep st e).1) rest =
      esRun ((esStep st e).1) rest from rfl]
    rw [ih, esStep_period]

/-- Claim C5 counterexample: a flush triggered by a full batch leaves
`period_seconds` at 2 (the adaptive growth is commented out in the source),
and after five consecutive full-batch flushes (40960 messages received with
no elapsed time) the period is still 2 s, not `min(2·1.2⁵, 30) ≈ 4.98 s`. -/
theorem c5_counterexample :
    esStep ⟨2, 8191⟩ 0 = (⟨2, 0⟩, some true) ∧
    (esRun esInit (List.replicate 40960 0)).period_seconds = 2 ∧
    (2 : ℚ) ≠ min (2 * (6 / 5) ^ 5) 30 := by
  refine ⟨by decide, ?_, by norm_num [min_def]⟩
  rw [esRun_period]
  rfl

/-- Claim C5 as amended: `period_seconds` starts at `MIN_PERIOD_SECONDS`
(2 s) and is never changed by the flush loop — the `×1.2` / `×0.8` adaptive
updates exist only as commented-out code — so after any sequence of receives
and flushes (full-batch or period-triggered) it is still 2 s. -/
theorem c5_period_constant (els : List ℚ) :
    (esRun esInit els).period_seconds = MIN_PERIOD_SECONDS := by
  rw [esRun_period]
  rfl

/-- Claim C5 witness: the amended theorem evaluated on five consecutive
full-batch flushes. -/
theorem c5_period_constant_witness :
    (esRun esInit (List.replicate 40960 0)).period_seconds = MIN_PERIOD_SECONDS :=
  c5_period_constant (List.replicate 40960 0)

/-! ### Dispatcher lemmas (claim C1) -/

lemma writeCallsFrom_ge {σ : Type} (ws : List (Option σ)) :
    ∀ k, ∀ x ∈ writeCallsFrom k ws, k ≤ x := by
  induction ws with
  | nil => intro k x hx; simp [writeCallsFrom] at hx
  | cons w ws ih =>
    intro k x hx
    cases w with
    | none =>
      have := ih (k + 1) x hx
      omega
    | some s =>
      rw [writeCallsFrom] at hx
      rcases List.mem_cons.mp hx with h | h
      · omega
      · have := ih (k + 1) x h
        omega

lemma count_writeCallsFrom {σ : Type} (ws : List (Option σ)) :
    ∀ k i, (writeCallsFrom k ws).count (k + i) =
      if (ws.getD i none).isSome then 1 else 0 := by
  induction ws with
  | nil => intro k i; simp [writeCallsFrom]
  | cons w ws ih =>
    intro k i
    cases w with
    | none =>
      cases i with
      | zero =>
        rw [writeCallsFrom]
        have hge := writeCallsFrom_ge ws (k + 1)
        have hnm : k ∉ writeCallsFrom (k + 1) ws := by
          intro hmem
          have := hge _ hmem
          omega
        simp [List.count_eq_zero.mpr hnm]
      | succ i =>
        rw [writeCallsFrom]
        have heq : k + (i + 1) = (k + 1) + i := by omega
        rw [heq, ih (k + 1) i]
        rfl
    | some s =>
      cases i with
      | zero =>
        rw [writeCallsFrom]
        have hge := writeCallsFrom_ge ws (k + 1)
        have hnm : k ∉ writeCallsFrom (k + 1) ws := by
          intro hmem
          have := hge _ hmem
          omega
        simp [List.count_cons, List.count_eq_zero.mpr hnm]
      | succ i =>
        rw [writeCallsFrom, List.count_cons]
        have heq : k + (i + 1) = (k + 1) + i := by omega
        rw [heq, ih (k + 1) i]
        have hne : ¬((k + 1) + i = k) := by omega
        simp [hne]
        omega

lemma mem_writeErrorsFrom_of {σ ε : Type} (write : σ → ε → Bool) (e : ε)
    (ws : List (Option σ)) :
    ∀ k j s, ws.getD j none = some s → write s e = false →
      (k + j) ∈ writeErrorsFrom write e k ws := by
  induction ws with
  | nil => intro k j s hj; simp at hj
  | cons w ws ih =>
    intro k j s hj hw
    cases j with
    | zero =>
      simp only [List.getD_cons_zero] at hj
      subst hj
      rw [writeErrorsFrom, hw]
      simp
    | succ j =>
      simp only [List.getD_cons_succ] at hj
      have := ih (k + 1) j s hj hw
      have heq : k + (j + 1) = (k + 1) + j := by omega
      rw [heq]
      cases w with
      | none => rw [writeErrorsFrom]; exact this
      | some s0 =>
        rw [writeErrorsFrom]
        split
        · exact this
        · exact List.mem_cons_of_mem _ this

lemma of_mem_writeErrorsFrom {σ ε : Type} (write : σ → ε → Bool) (e : ε)
    (ws : List (Option σ)) :
    ∀ k x, x ∈ writeErrorsFrom write e k ws →
      ∃ j s, x = k + j ∧ ws.getD j none = some s ∧ write s e = false := by
  induction ws with
  | nil => intro k x hx; simp [writeErrorsFrom] at hx
  | cons w ws ih =>
    intro k x hx
    cases w with
    | none =>
      rw [writeErrorsFrom] at hx
      obtain ⟨j, s, rfl, hj, hw⟩ := ih (k + 1) x hx
      exact ⟨j + 1, s, by omega, by simpa using hj, hw⟩
    | some s0 =>
      rw [writeErrorsFrom] at hx
      split at hx
      · obtain ⟨j, s, rfl, hj, hw⟩ := ih (k + 1) x hx
        exact ⟨j + 1, s, by omega, by simpa using hj, hw⟩
      · rcases List.mem_cons.mp hx with rfl | hx
        · exact ⟨0, s0, by omega, rfl, by rename_i hf; simpa using hf⟩
        · obtain ⟨j, s, rfl, hj, hw⟩ := ih (k + 1) x hx
          exact ⟨j + 1, s, by omega, by simpa using hj, hw⟩

lemma getD_set_none {σ : Type} (ws : List (Option σ)) :
    ∀ i j, (ws.set j none).getD i none = if i = j then none else ws.getD i none := by
  induction ws with
  | nil => intro i j; simp
  | cons w ws ih =>
    intro i j
    cases j with
    | zero =>
      cases i with
      | zero => simp
      | succ i => simp
    | succ j =>
      cases i with
      | zero => simp
      | succ i =>
        show (w :: ws.set j none).getD (i + 1) none = _
        simp only [List.getD_cons_succ]
        rw [ih i j]
        by_cases h : i = j
        · rw [if_pos h, if_pos (by omega)]
        · rw [if_neg h, if_neg (by omega)]

lemma getD_foldl_set {σ : Type} (l : List Nat) :
    ∀ (ws : List (Option σ)) i,
      (l.foldl (fun a j => a.set j none) ws).getD i none =
        if i ∈ l then none else ws.getD i none := by
  induction l with
  | nil => intro ws i; simp
  | cons j l ih =>
    intro ws i
    rw [List.foldl_cons, ih (ws.set j none) i, getD_set_none]
    by_cases hij : i = j
    · subst hij
      simp
    · by_cases hil : i ∈ l <;> simp [hij, hil]

lemma processEvent_getD_none {σ ε : Type} (write : σ → ε → Bool)
    (ws : List (Option σ)) (e : ε) (i : Nat)
    (h : (ws.getD i none) = none) :
    (processEvent write ws e).getD i none = none := by
  rw [processEvent, getD_foldl_set]
  split
  · rfl
  · exact h

lemma processEvents_getD_none {σ ε : Type} (write : σ → ε → Bool)
    (ws : List (Option σ)) (es : List ε) (i : Nat)
    (h : (ws.getD i none) = none) :
    (processEvents write ws es).getD i none = none := by
  induction es generalizing ws with
  | nil => exact h
  | cons e es ih =>
    rw [processEvents, List.foldl_cons]
    exact ih (processEvent write ws e) (processEvent_getD_none write ws e i h)

/-- Claim C1: fan-out quarantine.  For each received event, every still-active
sink gets exactly one `write` call and an inactive slot gets none; a sink
whose `write` errors is set to `None` before the next event and stays `None`
through every subsequent event; a sink whose `write` succeeds is untouched
by that event. -/
theorem c1_dispatcher_quarantine {σ ε : Type} (write : σ → ε → Bool)
    (writers : List (Option σ)) (e : ε) (es : List ε) (i : Nat) :
    ((writeCalls writers).count i = if (writers.getD i none).isSome then 1 else 0) ∧
    (writers.getD i none = none → i ∉ writeCalls writers) ∧
    (∀ s, writers.getD i none = some s → write s e = false →
      (processEvents write (processEvent write writers e) es).getD i none = none) ∧
    (∀ s, writers.getD i none = some s → write s e = true →
      (processEvent write writers e).getD i none = some s) := by
  refine ⟨?_, ?_, ?_, ?_⟩
  · have := count_writeCallsFrom writers 0 i
    simpa using this
  · intro h hmem
    have hc := count_writeCallsFrom writers 0 i
    rw [h] at hc
    simp at hc
    exact List.count_eq_zero.mp (by simpa using hc) hmem
  · intro s hs hw
    have hmem : i ∈ writeErrors write writers e := by
      have := mem_writeErrorsFrom_of write e writers 0 i s hs hw
      simpa using this
    have h1 : (processEvent write writers e).getD i none = none := by
      rw [processEvent, getD_foldl_set, if_pos hmem]
    exact processEvents_getD_none write _ es i h1
  · intro s hs hw
    have hnm : i ∉ writeErrors write writers e := by
      intro hmem
      obtain ⟨j, s', hj, hget, hfalse⟩ :=
        of_mem_writeErrorsFrom write e writers 0 i hmem
      have hji : j = i := by omega
      subst hji
      rw [hs] at hget
      injection hget with hss
      subst hss
      simp [hw] at hfalse
    rw [processEvent, getD_foldl_set, if_neg hnm, hs]

/-- Claim C1 witness: three sinks `[0, 1, 2]`, sink `1` failing on event `0`;
sink `1` gets one call on the first event and is `None` after two further
events, while sink `0` (whose write succeeded) is untouched. -/
theorem c1_dispatcher_quarantine_witness :
    ((writeCalls ([some 0, some 1, some 2] : List (Option Nat))).count 1 = 1) ∧
    ((processEvents (fun s e : Nat => !(s == 1 && e == 0))
        (processEvent (fun s e : Nat => !(s == 1 && e == 0))
          [some 0, some 1, some 2] 0) [1, 2]).getD 1 none = none) ∧
    ((processEvent (fun s e : Nat => !(s == 1 && e == 0))
        [some 0, some 1, some 2] 0).getD 0 none = some 0) := by
  obtain ⟨h1, h2, h3, h4⟩ := c1_dispatcher_quarantine
    (fun s e : Nat => !(s == 1 && e == 0)) [some 0, some 1, some 2] 0 [1, 2] 1
  obtain ⟨g1, g2, g3, g4⟩ := c1_dispatcher_quarantine
    (fun s e : Nat => !(s == 1 && e == 0)) [some 0, some 1, some 2] 0 [1, 2] 0
  refine ⟨by rw [h1]; rfl, h3 1 rfl rfl, g4 0 rfl rfl⟩

/-! ### get_id lemmas (claim C6) -/

lemma xxAvalanche_lt (h : Nat) : xxAvalanche h < 4294967296 := by
  rw [xxAvalanche]
  have h32 : (4294967296 : Nat) = 2 ^ 32 := by norm_num
  set h1 := Nat.xor h (h / 32768) with hh1
  set h2 := h1 * 2246822519 % 4294967296 with hh2
  set h3 := Nat.xor h2 (h2 / 8192) with hh3
  set h4 := h3 * 3266489917 % 4294967296 with hh4
  have hlt : h4 < 2 ^ 32 := by
    rw [hh4, ← h32]
    exact Nat.mod_lt _ (by norm_num)
  rw [h32]
  exact Nat.xor_lt_two_pow hlt (Nat.lt_of_le_of_lt (Nat.div_le_self _ _) hlt)

lemma xxh32_lt (seed : Nat) (bytes : List Nat) : xxh32 seed bytes < 4294967296 :=
  xxAvalanche_lt _

lemma natToHex_length_le {n : Nat} (h : n < 4294967296) : (natToHex n).length ≤ 8 := by
  have h16 : n < 16 ^ 8 := by norm_num; omega
  have := Nat.toDigitsCore_length 16 (by norm_num) (n + 1) n 8 h16 (by norm_num)
  simpa [natToHex, Nat.toDigits] using this

lemma padLeftZeros_length {s : Str} {w : Nat} (h : s.length ≤ w) :
    (padLeftZeros s w).length = w := by
  simp [padLeftZeros]
  omega

lemma squash_hash_eight (s : Str) :
    squash_hash s 8 = some (padLeftZeros (natToHex (rustStrHash s)) 8) := by
  rw [squash_hash]
  norm_num

/-- Claim C6: `get_id` of a clean `OrlLog` is the decimal Unix-millisecond
timestamp followed by the three 8-hex-character zero-padded 32-bit squashed
hashes of channel, username and text, joined by `'-'`; and `get_id` is a
pure function of the `(ts, channel, username, text)` fields. -/
theorem c6_get_id_format :
    (∀ l : OrlLog,
      OrlLog.get_id l = some (intToDec (timestamp_millis l.ts) ++ '-' ::
        padLeftZeros (natToHex (rustStrHash l.channel)) 8 ++ '-' ::
        padLeftZeros (natToHex (rustStrHash l.username)) 8 ++ '-' ::
        padLeftZeros (natToHex (rustStrHash l.text)) 8) ∧
      (padLeftZeros (natToHex (rustStrHash l.channel)) 8).length = 8 ∧
      (padLeftZeros (natToHex (rustStrHash l.username)) 8).length = 8 ∧
      (padLeftZeros (natToHex (rustStrHash l.text)) 8).length = 8) ∧
    (∀ l l' : OrlLog, l.ts = l'.ts → l.channel = l'.channel →
      l.username = l'.username → l.text = l'.text →
      OrlLog.get_id l = OrlLog.get_id l') := by
  constructor
  · intro l
    refine ⟨?_, ?_, ?_, ?_⟩
    · simp [OrlLog.get_id, squash_hash_eight]
    · exact padLeftZeros_length (natToHex_length_le (xxh32_lt _ _))
    · exact padLeftZeros_length (natToHex_length_le (xxh32_lt _ _))
    · exact padLeftZeros_length (natToHex_length_le (xxh32_lt _ _))
  · intro l l' h1 h2 h3 h4
    cases l with
    | mk a b c d =>
      cases l' with
      | mk a' b' c' d' =>
        dsimp only at h1 h2 h3 h4
        subst h1
        subst h2
        subst h3
        subst h4
        rfl

/-- Claim C6 witness: purity applied at the spec's concrete example fields
(`A_seagull` / `megablade136` / `!commands` at 1628037852616 ms). -/
theorem c6_get_id_format_witness :
    OrlLog.get_id ⟨⟨2021, 8, 4, 1, 24, 12, 616000000⟩, str "megablade136",
        str "!commands", str "A_seagull"⟩ =
      OrlLog.get_id ⟨⟨2021, 8, 4, 1, 24, 12, 616000000⟩, str "megablade136",
        str "!commands", str "A_seagull"⟩ :=
  c6_get_id_format.2 _ _ rfl rfl rfl rfl

/-! ### Line-split lemmas (claims C3, C4) -/

lemma splitn2_spec (sep : Char) (s : Str) :
    splitn2 sep s =
      (beforeChar sep s, if sep ∈ s then some (afterChar sep s) else none) := by
  induction s with
  | nil => simp [splitn2, beforeChar, afterChar]
  | cons c cs ih =>
    rw [splitn2]
    by_cases hc : c = sep
    · subst hc
      simp [beforeChar, afterChar, List.takeWhile_cons, List.dropWhile_cons]
    · have hmem : sep ∈ c :: cs ↔ sep ∈ cs := by
        constructor
        · intro h
          rcases List.mem_cons.mp h with h | h
          · exact absurd h.symm hc
          · exact h
        · exact List.mem_cons_of_mem c
      rw [if_neg hc, ih]
      have hb : beforeChar sep (c :: cs) = c :: beforeChar sep cs := by
        simp [beforeChar, List.takeWhile_cons, hc]
      have haft : afterChar sep (c :: cs) = afterChar sep cs := by
        simp [afterChar, List.dropWhile_cons, hc]
      rw [hb, haft]
      by_cases hm : sep ∈ cs
      · simp [hm, hmem]
      · simp [hm, hmem]

lemma splitn2_append (sep : Char) (a rest : Str) (ha : sep ∉ a) :
    splitn2 sep (a ++ sep :: rest) = (a, some rest) := by
  induction a with
  | nil => simp [splitn2]
  | cons c a ih =>
    have hc : ¬(c = sep) := fun h => ha (h ▸ List.mem_cons_self c a)
    have ha' : sep ∉ a := fun h => ha (List.mem_cons_of_mem c h)
    rw [List.cons_append, splitn2, if_neg hc, ih ha']

/-- Claim C4: `parse_message_line` is total — every input yields a record or
an error — and it errors exactly when the line has no closing `']'`, or no
`':'` after the first `']'`, or the (trimmed, bracket-stripped) timestamp
field fails to parse. -/
theorem c4_parse_message_line_total (input : Str) :
    ((parse_message_line input).isSome ∨ parse_message_line input = none) ∧
    (parse_message_line input = none ↔
      (']' ∉ input ∨
       (']' ∈ input ∧ ':' ∉ afterChar ']' input) ∨
       (']' ∈ input ∧ ':' ∈ afterChar ']' input ∧
        parse_timestamp (rustTrim (dropLeadingBrackets (beforeChar ']' input))) =
          none))) := by
  constructor
  · by_cases h : (parse_message_line input).isSome
    · exact Or.inl h
    · exact Or.inr (by simpa using h)
  · by_cases h1 : ']' ∈ input
    · by_cases h2 : ':' ∈ afterChar ']' input
      · cases hts : parse_timestamp (rustTrim (dropLeadingBrackets
          (beforeChar ']' input))) with
        | none => simp [parse_message_line, splitn2_spec, h1, h2, hts]
        | some t => simp [parse_message_line, splitn2_spec, h1, h2, hts]
      · simp [parse_message_line, splitn2_spec, h1, h2]
    · simp [parse_message_line, splitn2_spec, h1]

/-- Claim C4 witness: a line with a closing bracket but no colon errors. -/
theorem c4_parse_message_line_total_witness :
    parse_message_line (str "[2021-08-03 17:40:27 UTC] user") = none :=
  (c4_parse_message_line_total (str "[2021-08-03 17:40:27 UTC] user")).2.mpr
    (Or.inr (Or.inl (by decide)))

/-- Claim C3: `parse_message_line` splits on the first `']'` and then the
first `':'`, strips the leading `'['` and whitespace from the timestamp
field, trims and lower-cases the username, trims the text collapsing
newlines to spaces; on the concrete example line it produces the 313 ms
timestamp, username `"johnpyp"` and text `"Example message"`. -/
theorem c3_parse_message_line_split :
    (∀ a b c : Str, ']' ∉ a → ':' ∉ b →
      parse_message_line (a ++ ']' :: b ++ ':' :: c) =
        match parse_timestamp (rustTrim (dropLeadingBrackets a)) with
        | none => none
        | some ts =>
          some ⟨ts, rustToLowercase (rustTrim b), replaceNewlines (rustTrim c)⟩) ∧
    parse_message_line (str "[2021-08-03 17:40:27.313 UTC] jOhNpYp: Example message") =
      some ⟨⟨2021, 8, 3, 17, 40, 27, 313000000⟩, str "johnpyp",
        str "Example message"⟩ := by
  constructor
  · intro a b c ha hb
    have h1 : splitn2 ']' (a ++ ']' :: (b ++ ':' :: c)) = (a, some (b ++ ':' :: c)) :=
      splitn2_append _ _ _ ha
    have h2 : splitn2 ':' (b ++ ':' :: c) = (b, some c) := splitn2_append _ _ _ hb
    cases hts : parse_timestamp (rustTrim (dropLeadingBrackets a)) with
    | none => simp [parse_message_line, h1, h2, hts]
    | some t => simp [parse_message_line, h1, h2, hts]
  · decide

/-- Claim C3 witness: the split theorem applied to the example line's three
pieces. -/
theorem c3_parse_message_line_split_witness :
    parse_message_line (str "[2021-08-03 17:40:27.313 UTC" ++ ']' ::
        str " jOhNpYp" ++ ':' :: str " Example message") =
      match parse_timestamp (rustTrim (dropLeadingBrackets
          (str "[2021-08-03 17:40:27.313 UTC"))) with
      | none => none
      | some ts => some ⟨ts, rustToLowercase (rustTrim (str " jOhNpYp")),
          replaceNewlines (rustTrim (str " Example message"))⟩ :=
  c3_parse_message_line_split.1 _ _ _ (by decide) (by decide)

/-! ### Digit-character and wrapping lemmas (claims C2, C9) -/

lemma wrapI32_small {x : Int} (h1 : -2147483648 ≤ x) (h2 : x < 2147483648) :
    wrapI32 x = x := by
  rw [wrapI32]
  omega

lemma wrapU32_small {n : Nat} (h : n < 4294967296) : wrapU32 n = n :=
  Nat.mod_eq_of_lt h

lemma digitChar48_toNat {k : Nat} (h : k < 10) : (digitChar48 k).toNat = 48 + k :=
  toNat_ofNat_lt (by omega)

lemma isAsciiDigit_digitChar48 {k : Nat} (h : k < 10) :
    isAsciiDigit (digitChar48 k) = true := by
  simp [isAsciiDigit, digitChar48_toNat h]
  omega

lemma toDigit_digitChar48 {k : Nat} (h : k < 10) : toDigit (digitChar48 k) = k := by
  simp [toDigit, digitChar48_toNat h]

lemma not_digit_of_ws {c : Char} (h : rustIsWhitespace c = true) :
    isAsciiDigit c = false := by
  have hw := (ws_iff c).mp h
  cases hb : isAsciiDigit c
  · rfl
  · exfalso
    have hdd : 48 ≤ c.toNat ∧ c.toNat ≤ 57 := by simpa [isAsciiDigit] using hb
    omega

lemma ws_digitChar48 {k : Nat} (h : k < 10) :
    rustIsWhitespace (digitChar48 k) = false := by
  cases hb : rustIsWhitespace (digitChar48 k)
  · rfl
  · exfalso
    have hw := (ws_iff _).mp hb
    rw [digitChar48_toNat h] at hw
    omega

lemma digitChar48_ne {k : Nat} (hk : k < 10) {c : Char}
    (hc : c.toNat < 48 ∨ 57 < c.toNat) : digitChar48 k ≠ c := by
  intro heq
  have h2 := congrArg Char.toNat heq
  rw [digitChar48_toNat hk] at h2
  omega

/-! ### Fast-parser step lemmas -/

lemma tsRun_start_ws {wsl : Str} (h : ∀ c ∈ wsl, rustIsWhitespace c = true)
    (a : TsAcc) (rest : Str) :
    tsRun .tsStart a (wsl ++ rest) = tsRun .tsStart a rest := by
  induction wsl with
  | nil => rfl
  | cons c t ih =>
    have hc := h c (List.mem_cons_self c t)
    have hdd := not_digit_of_ws hc
    rw [List.cons_append]
    simp only [tsRun, hdd, Bool.false_eq_true, if_false, hc, if_true]
    exact ih (fun x hx => h x (List.mem_cons_of_mem c hx))

lemma tsRun_start_digit {k : Nat} (hk : k < 10) (a : TsAcc) (rest : Str) :
    tsRun .tsStart a (digitChar48 k :: rest) =
      tsRun .tsYear { a with year := (k : Int) } rest := by
  simp [tsRun, isAsciiDigit_digitChar48 hk, toDigit_digitChar48 hk]

lemma tsRun_year_digit {k : Nat} (hk : k < 10) (a : TsAcc) (rest : Str) :
    tsRun .tsYear a (digitChar48 k :: rest) =
      tsRun .tsYear { a with year := wrapI32 (a.year * 10 + (k : Int)) } rest := by
  simp [tsRun, isAsciiDigit_digitChar48 hk, toDigit_digitChar48 hk]

lemma tsRun_year_dash (a : TsAcc) (rest : Str) :
    tsRun .tsYear a ('-' :: rest) = tsRun .tsMonth a rest := by
  have h1 : isAsciiDigit '-' = false := by decide
  simp [tsRun, h1]

lemma tsRun_month_digit {k : Nat} (hk : k < 10) (a : TsAcc) (rest : Str) :
    tsRun .tsMonth a (digitChar48 k :: rest) =
      tsRun .tsMonth { a with month := wrapU32 (a.month * 10 + k) } rest := by
  simp [tsRun, isAsciiDigit_digitChar48 hk, toDigit_digitChar48 hk]

lemma tsRun_month_dash (a : TsAcc) (rest : Str) :
    tsRun .tsMonth a ('-' :: rest) = tsRun .tsDay a rest := by
  have h1 : isAsciiDigit '-' = false := by decide
  simp [tsRun, h1]

lemma tsRun_day_digit {k : Nat} (hk : k < 10) (a : TsAcc) (rest : Str) :
    tsRun .tsDay a (digitChar48 k :: rest) =
      tsRun .tsDay { a with day := wrapU32 (a.day * 10 + k) } rest := by
  simp [tsRun, isAsciiDigit_digitChar48 hk, toDigit_digitChar48 hk]

lemma tsRun_day_space (a : TsAcc) (rest : Str) :
    tsRun .tsDay a (' ' :: rest) = tsRun .tsTime a rest := by
  have h1 : isAsciiDigit ' ' = false := by decide
  simp [tsRun, h1]

lemma tsRun_time_digit {k : Nat} (hk : k < 10) (a : TsAcc) (rest : Str) :
    tsRun .tsTime a (digitChar48 k :: rest) =
      tsRun .tsHour { a with hour := wrapU32 (a.hour * 10 + k) } rest := by
  simp [tsRun, isAsciiDigit_digitChar48 hk, toDigit_digitChar48 hk]

lemma tsRun_hour_digit {k : Nat} (hk : k < 10) (a : TsAcc) (rest : Str) :
    tsRun .tsHour a (digitChar48 k :: rest) =
      tsRun .tsHour { a with hour := wrapU32 (a.hour * 10 + k) } rest := by
  simp [tsRun, isAsciiDigit_digitChar48 hk, toDigit_digitChar48 hk]

lemma tsRun_hour_colon (a : TsAcc) (rest : Str) :
    tsRun .tsHour a (':' :: rest) = tsRun .tsMinute a rest := by
  have h1 : isAsciiDigit ':' = false := by decide
  simp [tsRun, h1]

lemma tsRun_minute_digit {k : Nat} (hk : k < 10) (a : TsAcc) (rest : Str) :
    tsRun .tsMinute a (digitChar48 k :: rest) =
      tsRun .tsMinute { a with minute := wrapU32 (a.minute * 10 + k) } rest := by
  simp [tsRun, isAsciiDigit_digitChar48 hk, toDigit_digitChar48 hk]

lemma tsRun_minute_colon (a : TsAcc) (rest : Str) :
    tsRun .tsMinute a (':' :: rest) = tsRun .tsSecond a rest := by
  have h1 : isAsciiDigit ':' = false := by decide
  simp [tsRun, h1]

lemma tsRun_second_digit {k : Nat} (hk : k < 10) (a : TsAcc) (rest : Str) :
    tsRun .tsSecond a (digitChar48 k :: rest) =
      tsRun .tsSecond { a with second := wrapU32 (a.second * 10 + k) } rest := by
  simp [tsRun, isAsciiDigit_digitChar48 hk, toDigit_digitChar48 hk]

lemma tsRun_second_dot (a : TsAcc) (rest : Str) :
    tsRun .tsSecond a ('.' :: rest) = tsRun .tsMillisecond a rest := by
  have h1 : isAsciiDigit '.' = false := by decide
  simp [tsRun, h1]

lemma tsRun_second_break {c : Char} (hc : rustIsWhitespace c = true) (a : TsAcc)
    (rest : Str) : tsRun .tsSecond a (c :: rest) = some a := by
  have hdd := not_digit_of_ws hc
  have hne : ¬(c = '.') := by
    intro h
    rw [h] at hc
    exact absurd hc (by decide)
  simp [tsRun, hdd, hne, hc]

lemma tsRun_ms_digit {k : Nat} (hk : k < 10) (a : TsAcc) (rest : Str) :
    tsRun .tsMillisecond a (digitChar48 k :: rest) =
      tsRun .tsMillisecond { a with millisecond := wrapU32 (a.millisecond * 10 + k) }
        rest := by
  simp [tsRun, isAsciiDigit_digitChar48 hk, toDigit_digitChar48 hk]

lemma tsRun_ms_break {c : Char} (hc : rustIsWhitespace c = true) (a : TsAcc)
    (rest : Str) : tsRun .tsMillisecond a (c :: rest) = some a := by
  have hdd := not_digit_of_ws hc
  simp [tsRun, hdd, hc]

lemma yearAccum {y : Nat} (hy : y < 10000) :
    wrapI32 (wrapI32 (wrapI32 (((y / 1000 : Nat) : Int) * 10 +
      ((y / 100 % 10 : Nat) : Int)) * 10 + ((y / 10 % 10 : Nat) : Int)) * 10 +
      ((y % 10 : Nat) : Int)) = (y : Int) := by
  have h1 := wrapI32_small
    (x := ((y / 1000 : Nat) : Int) * 10 + ((y / 100 % 10 : Nat) : Int))
    (by omega) (by omega)
  rw [h1]
  have h2 := wrapI32_small
    (x := (((y / 1000 : Nat) : Int) * 10 + ((y / 100 % 10 : Nat) : Int)) * 10 +
      ((y / 10 % 10 : Nat) : Int)) (by omega) (by omega)
  rw [h2]
  have h3 := wrapI32_small
    (x := ((((y / 1000 : Nat) : Int) * 10 + ((y / 100 % 10 : Nat) : Int)) * 10 +
      ((y / 10 % 10 : Nat) : Int)) * 10 + ((y % 10 : Nat) : Int)) (by omega) (by omega)
  rw [h3]
  omega

lemma natAccum2 {n : Nat} (h : n < 100) :
    wrapU32 (wrapU32 (0 * 10 + n / 10) * 10 + n % 10) = n := by
  have h1 := wrapU32_small (n := 0 * 10 + n / 10) (by omega)
  rw [h1]
  have h2 := wrapU32_small (n := (0 * 10 + n / 10) * 10 + n % 10) (by omega)
  rw [h2]
  omega

lemma natAccum3 {n : Nat} (h : n < 1000) :
    wrapU32 (wrapU32 (wrapU32 (0 * 10 + n / 100) * 10 + n / 10 % 10) * 10 +
      n % 10) = n := by
  have h1 := wrapU32_small (n := 0 * 10 + n / 100) (by omega)
  rw [h1]
  have h2 := wrapU32_small (n := (0 * 10 + n / 100) * 10 + n / 10 % 10) (by omega)
  rw [h2]
  have h3 := wrapU32_small
    (n := ((0 * 10 + n / 100) * 10 + n / 10 % 10) * 10 + n % 10) (by omega)
  rw [h3]
  omega

lemma tsRun_core (y m d h mi s : Nat) (hy : y < 10000) (hm : m < 100)
    (hd2 : d < 100) (hh : h < 100) (hmi : mi < 100) (hs : s < 100) (tail : Str) :
    tsRun .tsStart tsAcc0 (canonicalCore y m d h mi s ++ tail) =
      tsRun .tsSecond ⟨(y : Int), m, d, h, mi, s, 0⟩ tail := by
  have hk1 : y / 1000 < 10 := by omega
  have hk2 : y / 100 % 10 < 10 := by omega
  have hk3 : y / 10 % 10 < 10 := by omega
  have hk4 : y % 10 < 10 := by omega
  have ha1 : m / 10 < 10 := by omega
  have ha2 : m % 10 < 10 := by omega
  have hb1 : d / 10 < 10 := by omega
  have hb2 : d % 10 < 10 := by omega
  have hc1 : h / 10 < 10 := by omega
  have hc2 : h % 10 < 10 := by omega
  have he1 : mi / 10 < 10 := by omega
  have he2 : mi % 10 < 10 := by omega
  have hf1 : s / 10 < 10 := by omega
  have hf2 : s % 10 < 10 := by omega
  show tsRun .tsStart tsAcc0
    (digitChar48 (y / 1000) :: digitChar48 (y / 100 % 10) ::
     digitChar48 (y / 10 % 10) :: digitChar48 (y % 10) :: '-' ::
     digitChar48 (m / 10) :: digitChar48 (m % 10) :: '-' ::
     digitChar48 (d / 10) :: digitChar48 (d % 10) :: ' ' ::
     digitChar48 (h / 10) :: digitChar48 (h % 10) :: ':' ::
     digitChar48 (mi / 10) :: digitChar48 (mi % 10) :: ':' ::
     digitChar48 (s / 10) :: digitChar48 (s % 10) :: tail) = _
  rw [tsRun_start_digit hk1, tsRun_year_digit hk2, tsRun_year_digit hk3,
    tsRun_year_digit hk4, tsRun_year_dash, tsRun_month_digit ha1,
    tsRun_month_digit ha2, tsRun_month_dash, tsRun_day_digit hb1,
    tsRun_day_digit hb2, tsRun_day_space, tsRun_time_digit hc1,
    tsRun_hour_digit hc2, tsRun_hour_colon, tsRun_minute_digit he1,
    tsRun_minute_digit he2, tsRun_minute_colon, tsRun_second_digit hf1,
    tsRun_second_digit hf2]
  refine congrFun (congrArg (tsRun .tsSecond) ?_) tail
  ext
  · exact yearAccum hy
  · exact natAccum2 hm
  · exact natAccum2 hd2
  · exact natAccum2 hh
  · exact natAccum2 hmi
  · exact natAccum2 hs
  · rfl

lemma tsRun_after_core (y m d h mi s : Nat) (ms : Option Nat) (tail2 : Str)
    (hy : y < 10000) (hm : m < 100) (hd2 : d < 100) (hh : h < 100)
    (hmi : mi < 100) (hs : s < 100) (hms : ∀ v ∈ ms, v < 1000)
    (htail : tail2 = [] ∨ ∃ c rest, tail2 = c :: rest ∧ rustIsWhitespace c = true) :
    tsRun .tsStart tsAcc0 (canonicalCore y m d h mi s ++ msPart ms ++ tail2) =
      some ⟨(y : Int), m, d, h, mi, s, ms.getD 0⟩ := by
  rw [List.append_assoc, tsRun_core y m d h mi s hy hm hd2 hh hmi hs]
  cases ms with
  | none =>
    rw [show msPart none ++ tail2 = tail2 by simp [msPart]]
    rcases htail with rfl | ⟨c, rest, rfl, hc⟩
    · rfl
    · rw [tsRun_second_break hc]
      rfl
  | some v =>
    have hv := hms v rfl
    have hv1 : v / 100 < 10 := by omega
    have hv2 : v / 10 % 10 < 10 := by omega
    have hv3 : v % 10 < 10 := by omega
    rw [show msPart (some v) ++ tail2 =
      '.' :: digitChar48 (v / 100) :: digitChar48 (v / 10 % 10) ::
      digitChar48 (v % 10) :: tail2 by simp [msPart, pad3]]
    rw [tsRun_second_dot, tsRun_ms_digit hv1, tsRun_ms_digit hv2, tsRun_ms_digit hv3]
    have hfin : ∀ b : TsAcc, tsRun .tsMillisecond b tail2 = some b := by
      intro b
      rcases htail with rfl | ⟨c, rest, rfl, hc⟩
      · rfl
      · rw [tsRun_ms_break hc]
    rw [hfin]
    congr 1
    ext
    · rfl
    · rfl
    · rfl
    · rfl
    · rfl
    · rfl
    · exact natAccum3 hv

/-- Claim C9: `parse_timestamp` never checks the `UTC` suffix — any
well-formed `YYYY-MM-DD HH:MM:SS[.mmm]` prefix followed by one whitespace
character and arbitrary trailing characters parses to the instant denoted by
the prefix; e.g. `"2021-08-03 17:40:27 banana"` parses to
2021-08-03T17:40:27Z. -/
theorem c9_suffix_ignored :
    (∀ (y m d h mi s : Nat) (ms : Option Nat) (c : Char) (rest : Str),
      y < 10000 → m < 100 → d < 100 → h < 100 → mi < 100 → s < 100 →
      (∀ v ∈ ms, v < 1000) → rustIsWhitespace c = true →
      isValidYmd (y : Int) m d = true →
      isValidHmsMilli h mi s (ms.getD 0) = true →
      parse_timestamp (canonicalCore y m d h mi s ++ msPart ms ++ c :: rest) =
        some ⟨(y : Int), m, d, h, mi, s, ms.getD 0 * 1000000⟩) ∧
    parse_timestamp (str "2021-08-03 17:40:27 banana") =
      some ⟨2021, 8, 3, 17, 40, 27, 0⟩ := by
  constructor
  · intro y m d h mi s ms c rest hy hm hd2 hh hmi hs hms hc hvd hvt
    simp only [parse_timestamp]
    rw [tsRun_after_core y m d h mi s ms (c :: rest) hy hm hd2 hh hmi hs hms
      (Or.inr ⟨c, rest, rfl, hc⟩)]
    simp [hvd, hvt]
  · decide

/-- Claim C9 witness: the concrete `banana` example through the general
theorem. -/
theorem c9_suffix_ignored_witness :
    parse_timestamp (canonicalCore 2021 8 3 17 40 27 ++ msPart none ++
        ' ' :: str "banana") =
      some ⟨2021, 8, 3, 17, 40, 27, 0⟩ := by
  have h := c9_suffix_ignored.1 2021 8 3 17 40 27 none ' ' (str "banana")
    (by decide) (by decide) (by decide) (by decide) (by decide) (by decide)
    (by simp) (by decide) (by decide) (by decide)
  simpa using h

/-! ### Slow-path (chrono model) lemmas (claim C2) -/

lemma trimStart_cons_ws {c : Char} (hc : rustIsWhitespace c = true) (cs : Str) :
    trimStart (c :: cs) = trimStart cs := by
  simp [trimStart, List.dropWhile_cons, hc]

lemma trimStart_cons_not_ws {c : Char} (hc : rustIsWhitespace c = false) (cs : Str) :
    trimStart (c :: cs) = c :: cs := by
  simp [trimStart, List.dropWhile_cons, hc]

lemma trimStart_append_ws {wsl : Str} (h : ∀ c ∈ wsl, rustIsWhitespace c = true)
    (rest : Str) : trimStart (wsl ++ rest) = trimStart rest := by
  induction wsl with
  | nil => rfl
  | cons c t ih =>
    rw [List.cons_append, trimStart_cons_ws (h c (by simp))]
    exact ih (fun x hx => h x (by simp [hx]))

lemma trimStart_all_ws {l : Str} (h : ∀ c ∈ l, rustIsWhitespace c = true) :
    trimStart l = [] := by
  have h2 := trimStart_append_ws h ([] : Str)
  simpa using h2

/-- Tails that start with a non-digit (or are empty) are left alone by a
digit `dropWhile`. -/
def NonDigitHead (l : Str) : Prop :=
  l = [] ∨ ∃ c r, l = c :: r ∧ isAsciiDigit c = false

lemma dropWhile_digit_eq_self {l : Str} (h : NonDigitHead l) :
    l.dropWhile isAsciiDigit = l := by
  rcases h with rfl | ⟨c, r, rfl, hc⟩
  · rfl
  · simp [List.dropWhile_cons, hc]

lemma nonDigitHead_of_wsHead {l : Str}
    (h : l = [] ∨ ∃ c r, l = c :: r ∧ rustIsWhitespace c = true) : NonDigitHead l := by
  rcases h with rfl | ⟨c, r, rfl, hc⟩
  · exact Or.inl rfl
  · exact Or.inr ⟨c, r, rfl, not_digit_of_ws hc⟩

lemma scanNumber_pad2 {n : Nat} (hn : n < 100) (rest : Str) :
    scanNumber 2 (pad2 n ++ rest) = some (n, rest) := by
  have h1 : n / 10 < 10 := by omega
  have h2 : n % 10 < 10 := by omega
  show scanNumber 2 (digitChar48 (n / 10) :: digitChar48 (n % 10) :: rest) = _
  simp only [scanNumber, isAsciiDigit_digitChar48 h1, if_true, toDigit_digitChar48 h1]
  simp only [scanNumGo, isAsciiDigit_digitChar48 h2, if_true, toDigit_digitChar48 h2]
  rw [if_pos (by omega)]
  have h3 : n / 10 * 10 + n % 10 = n := by omega
  rw [h3]

lemma scanNumber_pad4 {n : Nat} (hn : n < 10000) (rest : Str) :
    scanNumber 4 (pad4 n ++ rest) = some (n, rest) := by
  have h1 : n / 1000 < 10 := by omega
  have h2 : n / 100 % 10 < 10 := by omega
  have h3 : n / 10 % 10 < 10 := by omega
  have h4 : n % 10 < 10 := by omega
  show scanNumber 4 (digitChar48 (n / 1000) :: digitChar48 (n / 100 % 10) ::
    digitChar48 (n / 10 % 10) :: digitChar48 (n % 10) :: rest) = _
  simp only [scanNumber, isAsciiDigit_digitChar48 h1, if_true, toDigit_digitChar48 h1]
  simp only [scanNumGo, isAsciiDigit_digitChar48 h2, toDigit_digitChar48 h2,
    isAsciiDigit_digitChar48 h3, toDigit_digitChar48 h3,
    isAsciiDigit_digitChar48 h4, toDigit_digitChar48 h4, if_true]
  rw [if_pos (by omega), if_pos (by omega), if_pos (by omega)]
  have h5 : ((n / 1000 * 10 + n / 100 % 10) * 10 + n / 10 % 10) * 10 + n % 10 = n := by
    omega
  rw [h5]

lemma scanNumber_pad3_stop {n : Nat} (hn : n < 1000) {rest : Str}
    (hrest : NonDigitHead rest) :
    scanNumber 9 (pad3 n ++ rest) = some (n, rest) := by
  have h1 : n / 100 < 10 := by omega
  have h2 : n / 10 % 10 < 10 := by omega
  have h3 : n % 10 < 10 := by omega
  show scanNumber 9 (digitChar48 (n / 100) :: digitChar48 (n / 10 % 10) ::
    digitChar48 (n % 10) :: rest) = _
  simp only [scanNumber, isAsciiDigit_digitChar48 h1, if_true, toDigit_digitChar48 h1]
  simp only [scanNumGo, isAsciiDigit_digitChar48 h2, toDigit_digitChar48 h2,
    isAsciiDigit_digitChar48 h3, toDigit_digitChar48 h3, if_true]
  rw [if_pos (by omega), if_pos (by omega)]
  have h5 : (n / 100 * 10 + n / 10 % 10) * 10 + n % 10 = n := by omega
  rcases hrest with rfl | ⟨c, r, rfl, hc⟩
  · simp only [scanNumGo]
    rw [h5]
  · simp only [scanNumGo, hc, Bool.false_eq_true, if_false]
    rw [h5]

lemma expectChar_cons (c : Char) (rest : Str) : expectChar c (c :: rest) = some rest := by
  simp [expectChar]

lemma chronoNum2_pad2 {n : Nat} (hn : n < 100) (rest : Str) :
    chronoNum2 (pad2 n ++ rest) = some (n, rest) := by
  have h1 : n / 10 < 10 := by omega
  rw [chronoNum2, show pad2 n ++ rest = digitChar48 (n / 10) ::
    (digitChar48 (n % 10) :: rest) from rfl,
    trimStart_cons_not_ws (ws_digitChar48 h1)]
  exact scanNumber_pad2 hn rest

lemma chronoYear_pad4 {y : Nat} (hy : y < 10000) {wsl : Str}
    (hwsl : ∀ c ∈ wsl, rustIsWhitespace c = true) (rest : Str) :
    chronoYear (wsl ++ (pad4 y ++ rest)) = some ((y : Int), rest) := by
  have h1 : y / 1000 < 10 := by omega
  have htrim : trimStart (wsl ++ (pad4 y ++ rest)) =
      digitChar48 (y / 1000) :: (digitChar48 (y / 100 % 10) ::
        digitChar48 (y / 10 % 10) :: digitChar48 (y % 10) :: rest) := by
    rw [trimStart_append_ws hwsl]
    exact trimStart_cons_not_ws (ws_digitChar48 h1) _
  have hne1 : ¬(digitChar48 (y / 1000) = '-') := digitChar48_ne h1 (Or.inl (by decide))
  have hne2 : ¬(digitChar48 (y / 1000) = '+') := digitChar48_ne h1 (Or.inl (by decide))
  simp only [chronoYear, htrim, if_neg hne1, if_neg hne2]
  rw [show (digitChar48 (y / 1000) :: digitChar48 (y / 100 % 10) ::
    digitChar48 (y / 10 % 10) :: digitChar48 (y % 10) :: rest) = pad4 y ++ rest from rfl]
  rw [scanNumber_pad4 hy]

lemma trimStart_pad2 {n : Nat} (hn : n < 100) (rest : Str) :
    trimStart (pad2 n ++ rest) = pad2 n ++ rest := by
  have e : pad2 n ++ rest = digitChar48 (n / 10) :: (digitChar48 (n % 10) :: rest) := rfl
  rw [e, trimStart_cons_not_ws (ws_digitChar48 (by omega))]

lemma chronoCore_canonical (y m d h mi s : Nat) (hy : y < 10000) (hm : m < 100)
    (hd2 : d < 100) (hh : h < 100) (hmi : mi < 100) (hs : s < 100)
    {wsl : Str} (hwsl : ∀ c ∈ wsl, rustIsWhitespace c = true) (R : Str) :
    chronoCore (wsl ++ (canonicalCore y m d h mi s ++ R)) =
      some (⟨(y : Int), m, d, h, mi, s⟩, R) := by
  have hshape : wsl ++ (canonicalCore y m d h mi s ++ R) =
      wsl ++ (pad4 y ++ ('-' :: (pad2 m ++ ('-' :: (pad2 d ++ (' ' :: (pad2 h ++
        (':' :: (pad2 mi ++ (':' :: (pad2 s ++ R))))))))))) := by
    simp [canonicalCore, List.append_assoc]
  rw [hshape]
  simp only [chronoCore, chronoYear_pad4 hy hwsl, expectChar_cons,
    chronoNum2_pad2 hm, chronoNum2_pad2 hd2,
    trimStart_cons_ws (show rustIsWhitespace ' ' = true from by decide),
    trimStart_pad2 hh, chronoNum2_pad2 hh, chronoNum2_pad2 hmi, chronoNum2_pad2 hs]

lemma chronoDotF_ms {v : Nat} (hv : v < 1000) {rest2 : Str} (h : NonDigitHead rest2) :
    chronoDotF ('.' :: (pad3 v ++ rest2)) = some (v * 1000000, rest2) := by
  have hne : (('.' : Char) = '.') := rfl
  simp only [chronoDotF, if_pos hne, chronoNanos, scanNumber_pad3_stop hv h,
    dropWhile_digit_eq_self h]
  have hlen : (pad3 v ++ rest2).length - rest2.length = 3 := by
    simp [pad3]
    omega
  rw [hlen]
  norm_num

lemma chronoDotF_wsHead {l : Str}
    (h : l = [] ∨ ∃ c r, l = c :: r ∧ rustIsWhitespace c = true) :
    chronoDotF l = some (0, l) := by
  rcases h with rfl | ⟨c, r, rfl, hc⟩
  · rfl
  · have hne : ¬(c = '.') := by
      intro he
      rw [he] at hc
      exact absurd hc (by decide)
    simp [chronoDotF, hne]

lemma chronoTzName_dot_pad3 {v : Nat} (hv : v < 1000) (X : Str) :
    chronoTzName ('.' :: (pad3 v ++ X)) = chronoTzName X := by
  have h1 : v / 100 < 10 := by omega
  have h2 : v / 10 % 10 < 10 := by omega
  have h3 : v % 10 < 10 := by omega
  show chronoTzName ('.' :: digitChar48 (v / 100) :: digitChar48 (v / 10 % 10) ::
    digitChar48 (v % 10) :: X) = _
  simp only [chronoTzName, List.dropWhile_cons,
    show rustIsWhitespace '.' = false from by decide, ws_digitChar48 h1,
    ws_digitChar48 h2, ws_digitChar48 h3, Bool.not_false, if_true]

lemma chronoTzName_all_ws {l : Str} (h : ∀ c ∈ l, rustIsWhitespace c = true) :
    chronoTzName (trimStart l) = [] := by
  rw [trimStart_all_ws h]
  rfl

lemma chronoResolve_none_iff (f : ChronoFields) (n1 n2 : Nat) :
    (chronoResolve f n1 = none ↔ chronoResolve f n2 = none) := by
  simp only [chronoResolve]
  split_ifs <;> simp

lemma chronoTzName_ws_cons {w : Char} (hw : rustIsWhitespace w = true) (wr : Str) :
    chronoTzName (w :: wr) = w :: wr := by
  simp [chronoTzName, List.dropWhile_cons, hw]

lemma fast_canonical (y m d h mi s : Nat) (ms : Option Nat) (utc : Bool)
    (wsl wsr : Str) (hy : y < 10000) (hm : m < 100) (hd2 : d < 100) (hh : h < 100)
    (hmi : mi < 100) (hs : s < 100) (hms : ∀ v ∈ ms, v < 1000)
    (hwsl : ∀ c ∈ wsl, rustIsWhitespace c = true)
    (hwsr : ∀ c ∈ wsr, rustIsWhitespace c = true) :
    parse_timestamp (canonicalTs y m d h mi s ms utc wsl wsr) =
      if isValidYmd (y : Int) m d && isValidHmsMilli h mi s (ms.getD 0) then
        some ⟨(y : Int), m, d, h, mi, s, ms.getD 0 * 1000000⟩
      else none := by
  have hshape : canonicalTs y m d h mi s ms utc wsl wsr =
      wsl ++ (canonicalCore y m d h mi s ++ msPart ms ++
        ((if utc then [' ', 'U', 'T', 'C'] else []) ++ wsr)) := by
    simp [canonicalTs, List.append_assoc]
  rw [hshape]
  simp only [parse_timestamp]
  rw [tsRun_start_ws hwsl]
  have htail : ((if utc then [' ', 'U', 'T', 'C'] else []) ++ wsr) = [] ∨
      ∃ c rest, ((if utc then [' ', 'U', 'T', 'C'] else []) ++ wsr) = c :: rest ∧
        rustIsWhitespace c = true := by
    cases utc with
    | false =>
      cases wsr with
      | nil => exact Or.inl (by simp)
      | cons w r => exact Or.inr ⟨w, r, by simp, hwsr w (by simp)⟩
    | true => exact Or.inr ⟨' ', ['U', 'T', 'C'] ++ wsr, by simp, by decide⟩
  rw [tsRun_after_core y m d h mi s ms _ hy hm hd2 hh hmi hs hms htail]

lemma slow_canonical (y m d h mi s : Nat) (ms : Option Nat) (utc : Bool)
    (wsl wsr : Str) (hy : y < 10000) (hm : m < 100) (hd2 : d < 100) (hh : h < 100)
    (hmi : mi < 100) (hs : s < 100) (hms : ∀ v ∈ ms, v < 1000)
    (hwsl : ∀ c ∈ wsl, rustIsWhitespace c = true)
    (hwsr : ∀ c ∈ wsr, rustIsWhitespace c = true)
    (hutc : utc = true → wsr = []) :
    parse_timestamp_slow (canonicalTs y m d h mi s ms utc wsl wsr) =
      chronoResolve ⟨(y : Int), m, d, h, mi, s⟩ (ms.getD 0 * 1000000) := by
  cases utc with
  | true =>
    have hw : wsr = [] := hutc rfl
    subst hw
    cases ms with
    | none =>
      have hshape : canonicalTs y m d h mi s none true wsl [] =
          wsl ++ (canonicalCore y m d h mi s ++ [' ', 'U', 'T', 'C']) := by
        simp [canonicalTs, msPart, List.append_assoc]
      rw [hshape]
      have hcore := chronoCore_canonical y m d h mi s hy hm hd2 hh hmi hs hwsl
        [' ', 'U', 'T', 'C']
      have hdot : chronoDotF [' ', 'U', 'T', 'C'] = some (0, [' ', 'U', 'T', 'C']) :=
        chronoDotF_wsHead (Or.inr ⟨' ', ['U', 'T', 'C'], rfl, by decide⟩)
      have hF : chronoFmtF (wsl ++ (canonicalCore y m d h mi s ++
          [' ', 'U', 'T', 'C'])) = none := by
        simp [chronoFmtF, hcore, hdot]
      have hP : chronoFmtPlain (wsl ++ (canonicalCore y m d h mi s ++
          [' ', 'U', 'T', 'C'])) = none := by
        simp [chronoFmtPlain, hcore]
      have hFZ : chronoFmtFZ (wsl ++ (canonicalCore y m d h mi s ++
          [' ', 'U', 'T', 'C'])) =
          chronoResolve ⟨(y : Int), m, d, h, mi, s⟩ 0 := by
        simp [chronoFmtFZ, hcore, hdot,
          show chronoTzName (trimStart ([' ', 'U', 'T', 'C'] : Str)) = [] from by decide]
      simp only [parse_timestamp_slow, hF, hP, hFZ, Option.getD_none, Nat.zero_mul]
      cases hres : chronoResolve (⟨(y : Int), m, d, h, mi, s⟩ : ChronoFields) 0 with
      | some t => rfl
      | none =>
        have hZ : chronoFmtZ (wsl ++ (canonicalCore y m d h mi s ++
            [' ', 'U', 'T', 'C'])) = none := by
          simp [chronoFmtZ, hcore,
            show chronoTzName (trimStart ([' ', 'U', 'T', 'C'] : Str)) = [] from by decide,
            hres]
        rw [hZ]
    | some v =>
      have hv : v < 1000 := hms v rfl
      have hshape : canonicalTs y m d h mi s (some v) true wsl [] =
          wsl ++ (canonicalCore y m d h mi s ++
            ('.' :: (pad3 v ++ [' ', 'U', 'T', 'C']))) := by
        simp [canonicalTs, msPart, List.append_assoc]
      rw [hshape]
      have hcore := chronoCore_canonical y m d h mi s hy hm hd2 hh hmi hs hwsl
        ('.' :: (pad3 v ++ [' ', 'U', 'T', 'C']))
      have hdot : chronoDotF ('.' :: (pad3 v ++ [' ', 'U', 'T', 'C'])) =
          some (v * 1000000, [' ', 'U', 'T', 'C']) :=
        chronoDotF_ms hv (Or.inr ⟨' ', ['U', 'T', 'C'], rfl, by decide⟩)
      have hF : chronoFmtF (wsl ++ (canonicalCore y m d h mi s ++
          ('.' :: (pad3 v ++ [' ', 'U', 'T', 'C'])))) = none := by
        simp [chronoFmtF, hcore, hdot]
      have hP : chronoFmtPlain (wsl ++ (canonicalCore y m d h mi s ++
          ('.' :: (pad3 v ++ [' ', 'U', 'T', 'C'])))) = none := by
        simp [chronoFmtPlain, hcore]
      have hFZ : chronoFmtFZ (wsl ++ (canonicalCore y m d h mi s ++
          ('.' :: (pad3 v ++ [' ', 'U', 'T', 'C'])))) =
          chronoResolve ⟨(y : Int), m, d, h, mi, s⟩ (v * 1000000) := by
        simp [chronoFmtFZ, hcore, hdot,
          show chronoTzName (trimStart ([' ', 'U', 'T', 'C'] : Str)) = [] from by decide]
      simp only [parse_timestamp_slow, hF, hP, hFZ, Option.getD_some]
      cases hres : chronoResolve (⟨(y : Int), m, d, h, mi, s⟩ : ChronoFields)
          (v * 1000000) with
      | some t => rfl
      | none =>
        have hZ : chronoFmtZ (wsl ++ (canonicalCore y m d h mi s ++
            ('.' :: (pad3 v ++ [' ', 'U', 'T', 'C'])))) = none := by
          simp [chronoFmtZ, hcore,
            trimStart_cons_not_ws (show rustIsWhitespace '.' = false from by decide),
            chronoTzName_dot_pad3 hv,
            show chronoTzName ([' ', 'U', 'T', 'C'] : Str) = [' ', 'U', 'T', 'C'] from
              by decide]
        rw [hZ]
  | false =>
    cases ms with
    | none =>
      have hshape : canonicalTs y m d h mi s none false wsl wsr =
          wsl ++ (canonicalCore y m d h mi s ++ wsr) := by
        simp [canonicalTs, msPart, List.append_assoc]
      rw [hshape]
      have hcore := chronoCore_canonical y m d h mi s hy hm hd2 hh hmi hs hwsl wsr
      cases wsr with
      | nil =>
        rw [show wsl ++ (canonicalCore y m d h mi s ++ []) =
          wsl ++ canonicalCore y m d h mi s by simp]
        have hcore0 : chronoCore (wsl ++ canonicalCore y m d h mi s) =
            some (⟨(y : Int), m, d, h, mi, s⟩, []) := by
          simpa using hcore
        have hF : chronoFmtF (wsl ++ canonicalCore y m d h mi s) =
            chronoResolve ⟨(y : Int), m, d, h, mi, s⟩ 0 := by
          simp [chronoFmtF, hcore0, chronoDotF]
        simp only [parse_timestamp_slow, hF, Option.getD_none, Nat.zero_mul]
        cases hres : chronoResolve (⟨(y : Int), m, d, h, mi, s⟩ : ChronoFields) 0 with
        | some t => rfl
        | none =>
          have hP : chronoFmtPlain (wsl ++ canonicalCore y m d h mi s) =
              none := by
            simp [chronoFmtPlain, hcore0, hres]
          have hFZ : chronoFmtFZ (wsl ++ canonicalCore y m d h mi s) =
              none := by
            simp [chronoFmtFZ, hcore0, chronoDotF, trimStart, chronoTzName, hres]
          have hZ : chronoFmtZ (wsl ++ canonicalCore y m d h mi s) =
              none := by
            simp [chronoFmtZ, hcore0, trimStart, chronoTzName, hres]
          rw [hP, hFZ, hZ]
      | cons w wr =>
        have hwmem : rustIsWhitespace w = true := hwsr w (by simp)
        have hdot : chronoDotF (w :: wr) = some (0, w :: wr) :=
          chronoDotF_wsHead (Or.inr ⟨w, wr, rfl, hwmem⟩)
        have hF : chronoFmtF (wsl ++ (canonicalCore y m d h mi s ++ (w :: wr))) =
            none := by
          simp [chronoFmtF, hcore, hdot]
        have hP : chronoFmtPlain (wsl ++ (canonicalCore y m d h mi s ++ (w :: wr))) =
            none := by
          simp [chronoFmtPlain, hcore]
        have hFZ : chronoFmtFZ (wsl ++ (canonicalCore y m d h mi s ++ (w :: wr))) =
            chronoResolve ⟨(y : Int), m, d, h, mi, s⟩ 0 := by
          simp [chronoFmtFZ, hcore, hdot, chronoTzName_all_ws hwsr]
        simp only [parse_timestamp_slow, hF, hP, hFZ, Option.getD_none, Nat.zero_mul]
        cases hres : chronoResolve (⟨(y : Int), m, d, h, mi, s⟩ : ChronoFields) 0 with
        | some t => rfl
        | none =>
          have hZ : chronoFmtZ (wsl ++ (canonicalCore y m d h mi s ++ (w :: wr))) =
              none := by
            simp [chronoFmtZ, hcore, chronoTzName_all_ws hwsr, hres]
          rw [hZ]
    | some v =>
      have hv : v < 1000 := hms v rfl
      have hshape : canonicalTs y m d h mi s (some v) false wsl wsr =
          wsl ++ (canonicalCore y m d h mi s ++ ('.' :: (pad3 v ++ wsr))) := by
        simp [canonicalTs, msPart, List.append_assoc]
      rw [hshape]
      have hcore := chronoCore_canonical y m d h mi s hy hm hd2 hh hmi hs hwsl
        ('.' :: (pad3 v ++ wsr))
      cases wsr with
      | nil =>
        rw [show wsl ++ (canonicalCore y m d h mi s ++ ('.' :: (pad3 v ++ []))) =
          wsl ++ (canonicalCore y m d h mi s ++ ('.' :: pad3 v)) by simp]
        have hcore0 : chronoCore (wsl ++ (canonicalCore y m d h mi s ++
            ('.' :: pad3 v))) =
            some (⟨(y : Int), m, d, h, mi, s⟩, '.' :: pad3 v) := by
          simpa using hcore
        have hdot : chronoDotF ('.' :: pad3 v) = some (v * 1000000, []) := by
          simpa using chronoDotF_ms hv (Or.inl rfl)
        have hF : chronoFmtF (wsl ++ (canonicalCore y m d h mi s ++
            ('.' :: pad3 v))) =
            chronoResolve ⟨(y : Int), m, d, h, mi, s⟩ (v * 1000000) := by
          simp [chronoFmtF, hcore0, hdot]
        simp only [parse_timestamp_slow, hF, Option.getD_some]
        cases hres : chronoResolve (⟨(y : Int), m, d, h, mi, s⟩ : ChronoFields)
            (v * 1000000) with
        | some t => rfl
        | none =>
          have hP : chronoFmtPlain (wsl ++ (canonicalCore y m d h mi s ++
              ('.' :: pad3 v))) = none := by
            simp [chronoFmtPlain, hcore0]
          have hFZ : chronoFmtFZ (wsl ++ (canonicalCore y m d h mi s ++
              ('.' :: pad3 v))) = none := by
            simp [chronoFmtFZ, hcore0, hdot, trimStart, chronoTzName, hres]
          have htz0 : chronoTzName ('.' :: pad3 v) = [] := by
            simpa [chronoTzName] using chronoTzName_dot_pad3 hv ([] : Str)
          have hZ : chronoFmtZ (wsl ++ (canonicalCore y m d h mi s ++
              ('.' :: pad3 v))) = none := by
            have hn0 := (chronoResolve_none_iff
              (⟨(y : Int), m, d, h, mi, s⟩ : ChronoFields) (v * 1000000) 0).mp hres
            simp [chronoFmtZ, hcore0,
              trimStart_cons_not_ws (show rustIsWhitespace '.' = false from by decide),
              htz0, hn0]
          rw [hP, hFZ, hZ]
      | cons w wr =>
        have hwmem : rustIsWhitespace w = true := hwsr w (by simp)
        have hdot : chronoDotF ('.' :: (pad3 v ++ (w :: wr))) =
            some (v * 1000000, w :: wr) :=
          chronoDotF_ms hv (Or.inr ⟨w, wr, rfl, not_digit_of_ws hwmem⟩)
        have hF : chronoFmtF (wsl ++ (canonicalCore y m d h mi s ++
            ('.' :: (pad3 v ++ (w :: wr))))) = none := by
          simp [chronoFmtF, hcore, hdot]
        have hP : chronoFmtPlain (wsl ++ (canonicalCore y m d h mi s ++
            ('.' :: (pad3 v ++ (w :: wr))))) = none := by
          simp [chronoFmtPlain, hcore]
        have hFZ : chronoFmtFZ (wsl ++ (canonicalCore y m d h mi s ++
            ('.' :: (pad3 v ++ (w :: wr))))) =
            chronoResolve ⟨(y : Int), m, d, h, mi, s⟩ (v * 1000000) := by
          simp [chronoFmtFZ, hcore, hdot, chronoTzName_all_ws hwsr]
        simp only [parse_timestamp_slow, hF, hP, hFZ, Option.getD_some]
        cases hres : chronoResolve (⟨(y : Int), m, d, h, mi, s⟩ : ChronoFields)
            (v * 1000000) with
        | some t => rfl
        | none =>
          have hZ : chronoFmtZ (wsl ++ (canonicalCore y m d h mi s ++
              ('.' :: (pad3 v ++ (w :: wr))))) = none := by
            simp [chronoFmtZ, hcore,
              trimStart_cons_not_ws (show rustIsWhitespace '.' = false from by decide),
              chronoTzName_dot_pad3 hv, chronoTzName_ws_cons hwmem]
          rw [hZ]

lemma chronoResolve_eq {y : Int} {m d h mi s msv : Nat} (hs60 : s ≠ 60)
    (hmsv : msv < 1000) :
    chronoResolve ⟨y, m, d, h, mi, s⟩ (msv * 1000000) =
      (if isValidYmd y m d && isValidHmsMilli h mi s msv then
        some ⟨y, m, d, h, mi, s, msv * 1000000⟩ else none) := by
  simp only [chronoResolve, isValidHmsMilli]
  by_cases hv : isValidYmd y m d = true
  · by_cases hh : h ≤ 23
    · by_cases hmi2 : mi ≤ 59
      · by_cases hs2 : s ≤ 59
        · simp [hv, hh, hmi2, hs2, show msv ≤ 1999 by omega]
        · simp [hv, hh, hmi2, hs2, hs60]
      · simp [hv, hmi2]
    · simp [hv, hh]
  · simp [hv]

/-- Claim C2 as amended: for every canonical timestamp
`YYYY-MM-DD HH:MM:SS[.mmm][ UTC]` with surrounding whitespace — except that
no whitespace may follow a present `UTC` suffix and the seconds field is not
the leap-second value 60 — `parse_timestamp` and `parse_timestamp_slow`
agree: both return the denoted instant when the components are in range and
both reject out-of-range components; and both reject the empty string, a
missing time half, a missing date half, a `T` separator, and the concrete
out-of-range samples. -/
theorem c2_timestamp_equivalence :
    (∀ (y m d h mi s : Nat) (ms : Option Nat) (utc : Bool) (wsl wsr : Str),
      y < 10000 → m < 100 → d < 100 → h < 100 → mi < 100 → s < 100 → s ≠ 60 →
      (∀ v ∈ ms, v < 1000) → (∀ c ∈ wsl, rustIsWhitespace c = true) →
      (∀ c ∈ wsr, rustIsWhitespace c = true) → (utc = true → wsr = []) →
      parse_timestamp (canonicalTs y m d h mi s ms utc wsl wsr) =
        (if isValidYmd (y : Int) m d && isValidHmsMilli h mi s (ms.getD 0) then
          some ⟨(y : Int), m, d, h, mi, s, ms.getD 0 * 1000000⟩ else none) ∧
      parse_timestamp_slow (canonicalTs y m d h mi s ms utc wsl wsr) =
        (if isValidYmd (y : Int) m d && isValidHmsMilli h mi s (ms.getD 0) then
          some ⟨(y : Int), m, d, h, mi, s, ms.getD 0 * 1000000⟩ else none)) ∧
    (parse_timestamp (str "") = none ∧ parse_timestamp_slow (str "") = none) ∧
    (parse_timestamp (str "2021-08-03") = none ∧
      parse_timestamp_slow (str "2021-08-03") = none) ∧
    (parse_timestamp (str "17:40:27 UTC") = none ∧
      parse_timestamp_slow (str "17:40:27 UTC") = none) ∧
    (parse_timestamp (str "2021-08-03T17:40:27.313 UTC") = none ∧
      parse_timestamp_slow (str "2021-08-03T17:40:27.313 UTC") = none) ∧
    (parse_timestamp (str "2021-13-03 17:40:27 UTC") = none ∧
      parse_timestamp_slow (str "2021-13-03 17:40:27 UTC") = none) ∧
    (parse_timestamp (str "2021-08-32 17:40:27 UTC") = none ∧
      parse_timestamp_slow (str "2021-08-32 17:40:27 UTC") = none) ∧
    (parse_timestamp (str "2021-08-03 24:40:27 UTC") = none ∧
      parse_timestamp_slow (str "2021-08-03 24:40:27 UTC") = none) ∧
    (parse_timestamp (str "2021-08-03 17:60:27 UTC") = none ∧
      parse_timestamp_slow (str "2021-08-03 17:60:27 UTC") = none) ∧
    (parse_timestamp (str "2021-08-03 17:40:68 UTC") = none ∧
      parse_timestamp_slow (str "2021-08-03 17:40:68 UTC") = none) ∧
    (parse_timestamp (str "2022-02-29 12:34:56 UTC") = none ∧
      parse_timestamp_slow (str "2022-02-29 12:34:56 UTC") = none) := by
  refine ⟨?_, ⟨by decide, by decide⟩, ⟨by decide, by decide⟩, ⟨by decide, by decide⟩,
    ⟨by decide, by decide⟩, ⟨by decide, by decide⟩, ⟨by decide, by decide⟩,
    ⟨by decide, by decide⟩, ⟨by decide, by decide⟩, ⟨by decide, by decide⟩,
    ⟨by decide, by decide⟩⟩
  intro y m d h mi s ms utc wsl wsr hy hm hd2 hh hmi hs hs60 hms hwsl hwsr hutc
  have hmsd : ms.getD 0 < 1000 := by
    cases ms with
    | none => simp
    | some v => simpa using hms v rfl
  constructor
  · exact fast_canonical y m d h mi s ms utc wsl wsr hy hm hd2 hh hmi hs hms hwsl hwsr
  · rw [slow_canonical y m d h mi s ms utc wsl wsr hy hm hd2 hh hmi hs hms hwsl hwsr
      hutc]
    exact chronoResolve_eq hs60 hmsd

/-- Claim C2 counterexample: `"2021-08-03 17:40:27 UTC "` is a canonical
timestamp (UTC suffix, one trailing whitespace) on which `parse_timestamp`
succeeds while `parse_timestamp_slow` errors; and on the out-of-range
seconds value 60 the fast path rejects while chrono accepts it as a leap
second. -/
theorem c2_counterexample :
    str "2021-08-03 17:40:27 UTC " =
      canonicalTs 2021 8 3 17 40 27 none true [] [' '] ∧
    parse_timestamp (str "2021-08-03 17:40:27 UTC ") =
      some ⟨2021, 8, 3, 17, 40, 27, 0⟩ ∧
    parse_timestamp_slow (str "2021-08-03 17:40:27 UTC ") = none ∧
    parse_timestamp (str "2021-08-03 17:40:60") = none ∧
    parse_timestamp_slow (str "2021-08-03 17:40:60") =
      some ⟨2021, 8, 3, 17, 40, 59, 1000000000⟩ :=
  ⟨by decide, by decide, by decide, by decide, by decide⟩

/-- Claim C2 witness: equivalence evaluated on the canonical string
`2021-08-03 17:40:27.313 UTC`. -/
theorem c2_timestamp_equivalence_witness :
    parse_timestamp (canonicalTs 2021 8 3 17 40 27 (some 313) true [] []) =
      (if isValidYmd ((2021 : Nat) : Int) 8 3 &&
          isValidHmsMilli 17 40 27 ((some 313).getD 0) then
        some ⟨((2021 : Nat) : Int), 8, 3, 17, 40, 27, (some 313).getD 0 * 1000000⟩
      else none) ∧
    parse_timestamp_slow (canonicalTs 2021 8 3 17 40 27 (some 313) true [] []) =
      (if isValidYmd ((2021 : Nat) : Int) 8 3 &&
          isValidHmsMilli 17 40 27 ((some 313).getD 0) then
        some ⟨((2021 : Nat) : Int), 8, 3, 17, 40, 27, (some 313).getD 0 * 1000000⟩
      else none) :=
  c2_timestamp_equivalence.1 2021 8 3 17 40 27 (some 313) true [] []
    (by decide) (by decide) (by decide) (by decide) (by decide) (by decide)
    (by decide) (by intro v hv; simp at hv; omega) (by simp) (by simp)
    (fun _ => rfl)

end TL2
